import Mathlib

/-!
Verification of the analysis-and-alerting core of the telegram crypto
signals bot (`app/behaviour.py`, `app/app.py`).

Python dictionaries are shallowly embedded as insertion-ordered association
lists with string keys.  Fallible Python code (uncaught `KeyError`,
`IndexError`, `AttributeError`) is embedded with `Except String`.  The
stateful message pass `get_indicator_messages` is embedded as explicit
state passing; on the first run `self.last_analysis = new_analysis` is a
reference assignment in Python, so the prior-status lookup then reads the
status that was just written for the very entry being processed — the
embedding models the aliased lookup accordingly.
-/

/-- Python dict with string keys, embedded as an insertion-ordered
association list. -/
abbrev PyDict (α : Type) : Type := List (String × α)

/-- Dictionary lookup `d[k]` / `k in d`: the first binding wins (Python
dicts have unique keys). -/
def pyGet? {α : Type} : PyDict α → String → Option α
  | [], _ => none
  | (k, v) :: rest, key => if k = key then some v else pyGet? rest key

/-- Dictionary assignment `d[k] = v`: replaces the first binding of `k`,
appends a new binding when the key is absent (Python insertion order). -/
def pySet {α : Type} : PyDict α → String → α → PyDict α
  | [], key, v => [(key, v)]
  | (k, w) :: rest, key, v =>
    if k = key then (k, v) :: rest else (k, w) :: pySet rest key v

/-- Python double-splat merge `{**old, **new}` (behaviour.py line 886):
keys of `old` in their order with values overridden by `new` where present,
then keys of `new` that are absent from `old`, in their order.  Note this
is a shallow, top-level merge. -/
def pyMerge {α : Type} (old new : PyDict α) : PyDict α :=
  old.map (fun kv =>
    match pyGet? new kv.1 with
    | some w => (kv.1, w)
    | none => kv) ++
  new.filter (fun kv => (pyGet? old kv.1).isNone)

/-- One row of a rule-result table; only the hot/cold flags of the latest
row drive status and alerting. -/
structure ResultRow where
  is_hot : Bool
  is_cold : Bool
deriving Repr, DecidableEq

/-- Result of evaluating one rule configuration: either a tabular time
series (rows in chronological order, so `iloc[-1]` is the last element and
`shape[0]` the length), or the empty-string sentinel that
`_get_analysis_result` substitutes when the dispatched callable raised
`TypeError` (behaviour.py lines 380-390). -/
inductive RuleResult where
  | table : List ResultRow → RuleResult
  | emptyStr : RuleResult
deriving Repr, DecidableEq

/-- Python attribute access `result.shape[0]` (behaviour.py line 793): a
`str` has no `shape`, so the empty-string sentinel raises
`AttributeError`. -/
def resultShape : RuleResult → Except String Nat
  | .table rows => .ok rows.length
  | .emptyStr => .error "AttributeError: str object has no attribute shape"

/-- Python access `result.iloc[-1]`: the last row of the table. -/
def resultLatest : RuleResult → Option ResultRow
  | .table rows => rows.getLast?
  | .emptyStr => none

/-- Status string derived from the latest result row (behaviour.py lines
834-838): `hot` if `is_hot`, else `cold` if `is_cold`, else `neutral`. -/
def statusOf (row : ResultRow) : String :=
  if row.is_hot then "hot" else if row.is_cold then "cold" else "neutral"

/-- Alert policy decision (behaviour.py lines 849-856): `should_alert`
starts `True`, is cleared when `alert_frequency == "once"` and the prior
status equals the new one, and cleared when `alert_enabled` is false. -/
def should_alert_decision (alert_frequency : String) (alert_enabled : Bool)
    (status last_status : String) : Bool :=
  let should1 := true
  let should2 :=
    if alert_frequency = "once" then
      if last_status = status then false else should1
    else should1
  if !alert_enabled then false else should2

/-- The full alert gate (behaviour.py lines 843-856): the policy decision
runs only under `if latest_result['is_hot'] or latest_result['is_cold']`;
otherwise no alert is considered at all. -/
def alert_decision (row : ResultRow) (alert_frequency : String)
    (alert_enabled : Bool) (last_status : String) : Bool :=
  if row.is_hot || row.is_cold then
    should_alert_decision alert_frequency alert_enabled (statusOf row) last_status
  else false

/-- Outcome of the dispatched analysis callable invoked inside
`_get_analysis_result` (behaviour.py line 381): a normal tabular result, a
`TypeError`, or some other uncaught exception. -/
inductive EvalOutcome where
  | ok : List ResultRow → EvalOutcome
  | typeError : EvalOutcome
  | otherError : String → EvalOutcome
deriving Repr, DecidableEq

/-- The evaluator wrapper `_get_analysis_result` (behaviour.py lines
380-390): only `TypeError` is caught, and the result is then the empty
string `str()`; any other exception propagates to the caller. -/
def get_analysis_result : EvalOutcome → Except String RuleResult
  | .ok rows => .ok (.table rows)
  | .typeError => .ok .emptyStr
  | .otherError e => .error e

/-- The fields of one `analysis['config']` dict that drive the message
pass: `candle_period` (`none` models the key being absent from the dict),
the alert policy and the alert-enabled flag.  The remaining config fields
(signal names, thresholds, period counts) only feed the rendered values
and the evaluators, which are abstracted. -/
structure EntryConfig where
  candle_period : Option String
  alert_frequency : String
  alert_enabled : Bool
deriving Repr, DecidableEq

/-- One `{'result': ..., 'config': ...}` entry of the analysis snapshot;
`status` models the `'status'` key that `get_indicator_messages` writes at
behaviour.py line 841 (`none` = key absent). -/
structure AnalysisEntry where
  result : RuleResult
  config : EntryConfig
  status : Option String
deriving Repr, DecidableEq

/-- Rule name → ordered list of entries. -/
abbrev IndicatorMap : Type := PyDict (List AnalysisEntry)

/-- Rule kind (`indicators` / `informants` / `crossovers`) → names. -/
abbrev PairAnalysis : Type := PyDict IndicatorMap

/-- Market pair → pair analysis. -/
abbrev ExchangeAnalysis : Type := PyDict PairAnalysis

/-- Exchange → exchange analysis: the shape of `new_analysis` and
`self.last_analysis`. -/
abbrev Analysis : Type := PyDict ExchangeAnalysis

/-- A rendered alert message.  Template rendering itself is an external
collaborator (jinja2); the embedding records the substitution context that
identifies the emitting entry. -/
structure AlertMessage where
  exchange : String
  pair : String
  indicator : String
  index : Nat
  status : String
  last_status : String
deriving Repr, DecidableEq

/-- The `new_messages` accumulator: exchange → pair → candle period →
message list. -/
abbrev Msgs : Type := PyDict (PyDict (PyDict (List AlertMessage)))

/-- Assignment `new_messages[exchange][market_pair][candle_period] = v`.
The exchange and pair keys always exist at the call sites (created at
behaviour.py lines 761 and 767); the fallbacks only keep the function
total. -/
def msgsSetPeriod (m : Msgs) (exch pair cp : String)
    (v : List AlertMessage) : Msgs :=
  match pyGet? m exch with
  | some pm =>
    match pyGet? pm pair with
    | some cm => pySet m exch (pySet pm pair (pySet cm cp v))
    | none => pySet m exch (pySet pm pair [(cp, v)])
  | none => pySet m exch [(pair, [(cp, v)])]

/-- Read `new_messages[exchange][market_pair][candle_period]`, defaulting
to the empty list when a level is absent. -/
def msgsGetPeriod (m : Msgs) (exch pair cp : String) : List AlertMessage :=
  (((pyGet? m exch).bind (fun pm => pyGet? pm pair)).bind
    (fun cm => pyGet? cm cp)).getD []

/-- State threaded through the message pass: the prior run's analysis as
it stood when `get_indicator_messages` was entered, whether
`self.last_analysis` is an alias of `new_analysis` (true exactly on the
first run, set at behaviour.py lines 750-751), and the accumulated
`new_messages`. -/
structure LoopState where
  lastAnalysis : Analysis
  aliased : Bool
  messages : Msgs
deriving Repr

/-- The prior-status lookup at behaviour.py lines 844-847:
`self.last_analysis[exchange][market_pair][indicator_type][indicator][index]['status']`
guarded by a bare `except` that substitutes `str()`.  On the first run
`self.last_analysis` is the same object as `new_analysis`, so the lookup
finds the status written for this very entry one line earlier and returns
`newStatus`; otherwise any missing level yields the empty string. -/
def lookupLastStatus (st : LoopState) (exch pair kind ind : String)
    (idx : Nat) (newStatus : String) : String :=
  if st.aliased then newStatus
  else
    match pyGet? st.lastAnalysis exch with
    | none => ""
    | some ea =>
      match pyGet? ea pair with
      | none => ""
      | some pa =>
        match pyGet? pa kind with
        | none => ""
        | some im =>
          match pyGet? im ind with
          | none => ""
          | some entries =>
            match entries.get? idx with
            | none => ""
            | some e =>
              match e.status with
              | none => ""
              | some s => s

/-- Processing of one entry of the message pass (behaviour.py lines
792-883): the `shape[0]` guard, the per-period reset of the message list
(line 799), the status computation and write-back (lines 834-841), the
alert gate and prior-status lookup (lines 843-856), and the message append
(line 883).  The signal-value extraction (lines 801-832) only feeds the
rendered text and always sets `latest_result` to the entry's own last row
(indicator configs carry a non-empty signal list), so the embedding reads
the last row directly.  An entry that alerts but whose config lacks
`candle_period` raises `KeyError` at line 863. -/
def processEntry (exch pair kind ind : String) (idx : Nat)
    (entry : AnalysisEntry) (st : LoopState) :
    Except String (AnalysisEntry × LoopState) :=
  match resultShape entry.result with
  | .error e => .error e
  | .ok n =>
    if n = 0 then .ok (entry, st)
    else
      let latest := (resultLatest entry.result).getD ⟨false, false⟩
      let status := statusOf latest
      let st1 : LoopState :=
        match entry.config.candle_period with
        | some cp => { lastAnalysis := st.lastAnalysis, aliased := st.aliased,
                       messages := msgsSetPeriod st.messages exch pair cp [] }
        | none => st
      let entry1 : AnalysisEntry :=
        { result := entry.result, config := entry.config, status := some status }
      if latest.is_hot || latest.is_cold then
        let ls := lookupLastStatus st1 exch pair kind ind idx status
        if should_alert_decision entry.config.alert_frequency
            entry.config.alert_enabled status ls then
          match entry.config.candle_period with
          | none => .error "KeyError: candle_period"
          | some cp =>
            let msg : AlertMessage :=
              { exchange := exch, pair := pair, indicator := ind, index := idx,
                status := status, last_status := ls }
            let old := msgsGetPeriod st1.messages exch pair cp
            .ok (entry1,
              { lastAnalysis := st1.lastAnalysis, aliased := st1.aliased,
                messages := msgsSetPeriod st1.messages exch pair cp (old ++ [msg]) })
        else .ok (entry1, st1)
      else .ok (entry1, st1)

/-- The `enumerate` loop over one rule name's entry list (behaviour.py
line 792). -/
def processEntries (exch pair kind ind : String) (idx : Nat)
    (entries : List AnalysisEntry) (st : LoopState) :
    Except String (List AnalysisEntry × LoopState) :=
  match entries with
  | [] => .ok ([], st)
  | e :: rest =>
    match processEntry exch pair kind ind idx e st with
    | .error msg => .error msg
    | .ok (e1, st1) =>
      match processEntries exch pair kind ind (idx + 1) rest st1 with
      | .error msg => .error msg
      | .ok (rest1, st2) => .ok (e1 :: rest1, st2)

/-- The loop over rule names of one kind (behaviour.py line 791). -/
def processIndicators (exch pair kind : String) (im : IndicatorMap)
    (st : LoopState) : Except String (IndicatorMap × LoopState) :=
  match im with
  | [] => .ok ([], st)
  | (ind, entries) :: rest =>
    match processEntries exch pair kind ind 0 entries st with
    | .error msg => .error msg
    | .ok (entries1, st1) =>
      match processIndicators exch pair kind rest st1 with
      | .error msg => .error msg
      | .ok (rest1, st2) => .ok ((ind, entries1) :: rest1, st2)

/-- The loop over rule kinds (behaviour.py lines 787-789): the kind
`informants` is skipped untouched. -/
def processKinds (exch pair : String) (pa : PairAnalysis) (st : LoopState) :
    Except String (PairAnalysis × LoopState) :=
  match pa with
  | [] => .ok ([], st)
  | (kind, im) :: rest =>
    if kind = "informants" then
      match processKinds exch pair rest st with
      | .error msg => .error msg
      | .ok (rest1, st1) => .ok ((kind, im) :: rest1, st1)
    else
      match processIndicators exch pair kind im st with
      | .error msg => .error msg
      | .ok (im1, st1) =>
        match processKinds exch pair rest st1 with
        | .error msg => .error msg
        | .ok (rest1, st2) => .ok ((kind, im1) :: rest1, st2)

/-- The loop over market pairs (behaviour.py line 765):
`new_messages[exchange][market_pair]` is initialised to an empty dict at
line 767 before the pair is processed. -/
def processPairs (exch : String) (ea : ExchangeAnalysis) (st : LoopState) :
    Except String (ExchangeAnalysis × LoopState) :=
  match ea with
  | [] => .ok ([], st)
  | (pair, pa) :: rest =>
    let stInit : LoopState :=
      { lastAnalysis := st.lastAnalysis, aliased := st.aliased,
        messages :=
          match pyGet? st.messages exch with
          | some pm => pySet st.messages exch (pySet pm pair [])
          | none => pySet st.messages exch [(pair, [])] }
    match processKinds exch pair pa stInit with
    | .error msg => .error msg
    | .ok (pa1, st1) =>
      match processPairs exch rest st1 with
      | .error msg => .error msg
      | .ok (rest1, st2) => .ok ((pair, pa1) :: rest1, st2)

/-- The loop over exchanges (behaviour.py line 759):
`new_messages[exchange]` is initialised to an empty dict at line 761. -/
def processExchanges (a : Analysis) (st : LoopState) :
    Except String (Analysis × LoopState) :=
  match a with
  | [] => .ok ([], st)
  | (exch, ea) :: rest =>
    let stInit : LoopState :=
      { lastAnalysis := st.lastAnalysis, aliased := st.aliased,
        messages := pySet st.messages exch [] }
    match processPairs exch ea stInit with
    | .error msg => .error msg
    | .ok (ea1, st1) =>
      match processExchanges rest st1 with
      | .error msg => .error msg
      | .ok (rest1, st2) => .ok ((exch, ea1) :: rest1, st2)

/-- The message pass `get_indicator_messages` (behaviour.py lines
739-887), restricted to the non-informant message loop: when
`self.last_analysis` is empty (first run) it becomes an alias of
`new_analysis` (lines 750-751); the loops then produce the messages and
write statuses into the snapshot; finally `self.last_analysis` is replaced
by the shallow merge `{**self.last_analysis, **new_analysis}` (line 886).
Returns the `new_messages` structure and the new `self.last_analysis`. -/
def get_indicator_messages (lastAnalysis newAnalysis : Analysis) :
    Except String (Msgs × Analysis) :=
  let aliased := lastAnalysis.isEmpty
  let st0 : LoopState :=
    { lastAnalysis := lastAnalysis, aliased := aliased, messages := [] }
  match processExchanges newAnalysis st0 with
  | .error msg => .error msg
  | .ok (newA, st1) =>
    let lastBase := if aliased then newA else lastAnalysis
    .ok (st1.messages, pyMerge lastBase newA)

/-- Boundedness of the message accumulator: every per-period list holds at
most one message. -/
def msgsBounded (m : Msgs) : Prop :=
  ∀ e p c, (msgsGetPeriod m e p c).length ≤ 1

/-- A snapshot entry as produced for an enabled rsi indicator config on
the 1h period with the once policy, whose latest row is hot. -/
def onceHotEntry : AnalysisEntry :=
  { result := .table [{ is_hot := true, is_cold := false }],
    config := { candle_period := some "1h", alert_frequency := "once",
                alert_enabled := true },
    status := none }

/-- Same entry with the always policy. -/
def alwaysHotEntry : AnalysisEntry :=
  { result := .table [{ is_hot := true, is_cold := false }],
    config := { candle_period := some "1h", alert_frequency := "always",
                alert_enabled := true },
    status := none }

/-- A single-entry first-run snapshot. -/
def c2newAnalysis : Analysis :=
  [("binance", [("BTC/USDT", [("indicators", [("rsi", [onceHotEntry])])])])]

/-- A prior history holding a hot status for BTC/USDT on binance. -/
def c3lastAnalysis : Analysis :=
  [("binance", [("BTC/USDT", [("indicators", [("rsi",
    [{ result := RuleResult.table [{ is_hot := true, is_cold := false }],
       config := { candle_period := some "1h", alert_frequency := "once",
                   alert_enabled := true },
       status := some "hot" }])])])])]

/-- A new run for the same exchange that analyzed only ETH/USDT. -/
def c3newAnalysis : Analysis :=
  [("binance", [("ETH/USDT", [("indicators", [("rsi", [alwaysHotEntry])])])])]

/-- A run whose rsi indicator has two enabled 1h configs, both hot with
the always policy — two qualifying entries for one (pair, period). -/
def c4newAnalysis : Analysis :=
  [("binance", [("BTC/USDT", [("indicators",
    [("rsi", [alwaysHotEntry, alwaysHotEntry])])])])]

/-- A single-entry variant of the same run. -/
def c4newAnalysisSingle : Analysis :=
  [("binance", [("BTC/USDT", [("indicators",
    [("rsi", [alwaysHotEntry])])])])]

/-- The concrete two-entry run used to witness the corrected C4. -/
def c4witnessRun : Msgs × Analysis :=
  (get_indicator_messages [("seed", [])] c4newAnalysis).toOption.getD ([], [])

/-- An entry whose evaluation raised `TypeError`, so `_get_analysis_result`
returned the empty string sentinel. -/
def c6entry : AnalysisEntry :=
  { result := .emptyStr,
    config := { candle_period := some "1h", alert_frequency := "always",
                alert_enabled := true },
    status := none }

/-- A run containing such an entry. -/
def c6newAnalysis : Analysis :=
  [("binance", [("BTC/USDT", [("indicators", [("rsi", [c6entry])])])])]

/-- One crossover configuration dict, with the reference fields used at
behaviour.py lines 303-313. -/
structure CrossoverConf where
  enabled : Bool
  key_indicator_type : String
  key_indicator : String
  key_indicator_index : Nat
  key_signal : String
  crossed_indicator_type : String
  crossed_indicator : String
  crossed_indicator_index : Nat
  crossed_signal : String
deriving Repr, DecidableEq

/-- Python subscript `d[k]` on a dict: raises `KeyError` when the key is
absent. -/
def pyIndexDict {α : Type} (d : PyDict α) (k : String) : Except String α :=
  match pyGet? d k with
  | some v => .ok v
  | none => .error ("KeyError: " ++ k)

/-- Python subscript `l[i]` on a list: raises `IndexError` when the index
is out of range. -/
def pyIndexList {α : Type} (l : List α) (i : Nat) : Except String α :=
  match l.get? i with
  | some v => .ok v
  | none => .error "IndexError: list index out of range"

/-- The inner loop of `_get_crossover_results` over one crossover name's
configuration list (behaviour.py lines 298-318).  Disabled entries are
skipped; for enabled entries the `(type, name, index)` references are
resolved by bare subscripting with NO try/except, so a missing key or an
out-of-range index raises and propagates.  The dispatched crossover
callable is abstracted as the `dispatch` parameter. -/
def crossover_conf_loop
    (dispatch : String → CrossoverConf → RuleResult → RuleResult → RuleResult)
    (crossover : String) (confs : List CrossoverConf)
    (newResult : PairAnalysis) :
    Except String (List (RuleResult × CrossoverConf)) :=
  match confs with
  | [] => .ok []
  | conf :: rest =>
    if !conf.enabled then crossover_conf_loop dispatch crossover rest newResult
    else
      match pyIndexDict newResult conf.key_indicator_type with
      | .error e => .error e
      | .ok keyMap =>
        match pyIndexDict keyMap conf.key_indicator with
        | .error e => .error e
        | .ok keyList =>
          match pyIndexList keyList conf.key_indicator_index with
          | .error e => .error e
          | .ok keyEntry =>
            match pyIndexDict newResult conf.crossed_indicator_type with
            | .error e => .error e
            | .ok crossedMap =>
              match pyIndexDict crossedMap conf.crossed_indicator with
              | .error e => .error e
              | .ok crossedList =>
                match pyIndexList crossedList conf.crossed_indicator_index with
                | .error e => .error e
                | .ok crossedEntry =>
                  match crossover_conf_loop dispatch crossover rest newResult with
                  | .error e => .error e
                  | .ok rest1 =>
                    .ok ((dispatch crossover conf keyEntry.result
                      crossedEntry.result, conf) :: rest1)

/-- `_get_crossover_results` (behaviour.py lines 279-319): the results
dict starts with an empty list per configured crossover name; names that
are not in the dispatcher are skipped with a warning and keep their empty
list; any exception from the inner loop propagates out of the whole
function. -/
def get_crossover_results (dispatcherNames : List String)
    (dispatch : String → CrossoverConf → RuleResult → RuleResult → RuleResult)
    (crossoverConf : PyDict (List CrossoverConf))
    (newResult : PairAnalysis) :
    Except String (PyDict (List (RuleResult × CrossoverConf))) :=
  match crossoverConf with
  | [] => .ok []
  | (crossover, confs) :: rest =>
    if dispatcherNames.contains crossover then
      match crossover_conf_loop dispatch crossover confs newResult with
      | .error e => .error e
      | .ok entries =>
        match get_crossover_results dispatcherNames dispatch rest newResult with
        | .error e => .error e
        | .ok rest1 => .ok ((crossover, entries) :: rest1)
    else
      match get_crossover_results dispatcherNames dispatch rest newResult with
      | .error e => .error e
      | .ok rest1 => .ok ((crossover, []) :: rest1)

/-- The pair's already-computed results that crossovers reference: one rsi
entry at index 0. -/
def c5pairResult : PairAnalysis :=
  [("indicators", [("rsi", [alwaysHotEntry])]), ("informants", [])]

/-- A crossover config whose references resolve. -/
def c5goodConf : CrossoverConf :=
  { enabled := true, key_indicator_type := "indicators",
    key_indicator := "rsi", key_indicator_index := 0, key_signal := "rsi",
    crossed_indicator_type := "indicators", crossed_indicator := "rsi",
    crossed_indicator_index := 0, crossed_signal := "rsi" }

/-- The same config with `key_indicator_index` beyond the configured list
length (index 1, list of length 1). -/
def c5badConf : CrossoverConf :=
  { enabled := true, key_indicator_type := "indicators",
    key_indicator := "rsi", key_indicator_index := 1, key_signal := "rsi",
    crossed_indicator_type := "indicators", crossed_indicator := "rsi",
    crossed_indicator_index := 0, crossed_signal := "rsi" }

/-- A concrete crossover dispatcher callable stand-in. -/
def c5dispatch : String → CrossoverConf → RuleResult → RuleResult →
    RuleResult :=
  fun _ _ key _ => key

/-- A crossover config referencing a type key that does not exist. -/
def c5missingTypeConf : CrossoverConf :=
  { enabled := true, key_indicator_type := "bogus",
    key_indicator := "rsi", key_indicator_index := 0, key_signal := "rsi",
    crossed_indicator_type := "indicators", crossed_indicator := "rsi",
    crossed_indicator_index := 0, crossed_signal := "rsi" }

/-- An OHLCV candle list; rows are abstracted (only identity and
emptiness matter to the caching logic). -/
abbrev CandleSeries : Type := List Nat

/-- One indicator (or informant) configuration dict, restricted to the
fields that drive candle fetching and rule scheduling: `enabled` and
`candle_period`.  The remaining fields (signal names, thresholds,
period_count) are only packed into the analyser arguments, which the
embedding abstracts. -/
structure IndicatorConf where
  enabled : Bool
  candle_period : String
deriving Repr, DecidableEq

/-- Number of occurrences of a candle period in a fetch log. -/
def countOccur (cp : String) : List String → Nat
  | [] => 0
  | x :: rest => (if x = cp then 1 else 0) + countOccur cp rest

/-- The inner configuration loop of `get_all_historical_data` for one
(exchange, market pair) (behaviour.py lines 108-119): for each enabled
config, when the candle period is not yet in the per-pair cache the series
is fetched (recorded in the fetch log); an EMPTY fetch result is only
logged as a warning and NOT stored (`continue` at line 117), a non-empty
one is stored under the period.  `fetch` stands for
`_get_historical_data`, whose exception handling already turns failures
into the empty list (behaviour.py lines 322-364). -/
def history_conf_loop (fetch : String → CandleSeries)
    (confs : List IndicatorConf) (cache : PyDict CandleSeries)
    (log : List String) : PyDict CandleSeries × List String :=
  match confs with
  | [] => (cache, log)
  | conf :: rest =>
    if conf.enabled then
      match pyGet? cache conf.candle_period with
      | some _ => history_conf_loop fetch rest cache log
      | none =>
        let d := fetch conf.candle_period
        if d.length = 0 then
          history_conf_loop fetch rest cache (log ++ [conf.candle_period])
        else
          history_conf_loop fetch rest
            (pySet cache conf.candle_period d) (log ++ [conf.candle_period])
    else history_conf_loop fetch rest cache log

/-- The indicator-name loop of `get_all_historical_data` (behaviour.py
lines 103-106): names missing from the indicator dispatcher are skipped
with a warning. -/
def history_indicator_loop (dispatcherNames : List String)
    (fetch : String → CandleSeries)
    (indicatorConf : PyDict (List IndicatorConf))
    (cache : PyDict CandleSeries) (log : List String) :
    PyDict CandleSeries × List String :=
  match indicatorConf with
  | [] => (cache, log)
  | (indicator, confs) :: rest =>
    if dispatcherNames.contains indicator then
      history_indicator_loop dispatcherNames fetch rest
        (history_conf_loop fetch confs cache log).1
        (history_conf_loop fetch confs cache log).2
    else history_indicator_loop dispatcherNames fetch rest cache log

/-- The per-(exchange, market pair) body of `get_all_historical_data`
(behaviour.py lines 84-122), started from the empty per-pair cache, paired
with the log of fetch calls it makes for this pair. -/
def get_all_historical_data_pair (dispatcherNames : List String)
    (indicatorConf : PyDict (List IndicatorConf))
    (fetch : String → CandleSeries) : PyDict CandleSeries × List String :=
  history_indicator_loop dispatcherNames fetch indicatorConf [] []

/-- The full `get_all_historical_data` over exchanges and market pairs
(behaviour.py lines 94-122): each (exchange, pair) gets its own per-pair
cache built by the config loops; `fetch` takes (pair, exchange, period). -/
def get_all_historical_data (dispatcherNames : List String)
    (indicatorConf : PyDict (List IndicatorConf))
    (marketData : PyDict (List String))
    (fetch : String → String → String → CandleSeries) :
    PyDict (PyDict (PyDict CandleSeries)) :=
  marketData.map (fun ep =>
    (ep.1, ep.2.map (fun pair =>
      (pair, (get_all_historical_data_pair dispatcherNames indicatorConf
        (fetch pair ep.1)).1))))

/-- Two enabled rsi configs sharing the 1h candle period. -/
def c7conf : PyDict (List IndicatorConf) :=
  [("rsi", [{ enabled := true, candle_period := "1h" },
            { enabled := true, candle_period := "1h" }])]

/-- The configuration loop of `_get_indicator_results` for one indicator
name (behaviour.py lines 192-224): disabled configs are skipped, configs
whose candle period is absent from the per-pair cache are skipped (lines
199-200), configs whose cached series is empty are silently skipped by the
truthiness test at line 202, and the remaining ones are evaluated through
`_get_analysis_result` (whose uncaught exceptions propagate). -/
def indicator_conf_results (evalInd : String → IndicatorConf → EvalOutcome)
    (indicator : String) (confs : List IndicatorConf)
    (cache : PyDict CandleSeries) :
    Except String (List (RuleResult × IndicatorConf)) :=
  match confs with
  | [] => .ok []
  | conf :: rest =>
    if !conf.enabled then indicator_conf_results evalInd indicator rest cache
    else
      match pyGet? cache conf.candle_period with
      | none => indicator_conf_results evalInd indicator rest cache
      | some series =>
        if series.length = 0 then
          indicator_conf_results evalInd indicator rest cache
        else
          match get_analysis_result (evalInd indicator conf) with
          | .error e => .error e
          | .ok r =>
            match indicator_conf_results evalInd indicator rest cache with
            | .error e => .error e
            | .ok rest1 => .ok ((r, conf) :: rest1)

/-- `_get_indicator_results` (behaviour.py lines 172-225): the results
dict starts with an empty list per configured indicator name; names not in
the indicator dispatcher are skipped with a warning and keep their empty
list. -/
def get_indicator_results (dispatcherNames : List String)
    (indicatorConf : PyDict (List IndicatorConf))
    (cache : PyDict CandleSeries)
    (evalInd : String → IndicatorConf → EvalOutcome) :
    Except String (PyDict (List (RuleResult × IndicatorConf))) :=
  match indicatorConf with
  | [] => .ok []
  | (indicator, confs) :: rest =>
    if dispatcherNames.contains indicator then
      match indicator_conf_results evalInd indicator confs cache with
      | .error e => .error e
      | .ok entries =>
        match get_indicator_results dispatcherNames rest cache evalInd with
        | .error e => .error e
        | .ok rest1 => .ok ((indicator, entries) :: rest1)
    else
      match get_indicator_results dispatcherNames rest cache evalInd with
      | .error e => .error e
      | .ok rest1 => .ok ((indicator, []) :: rest1)

/-- The configuration loop of `_get_informant_results` for one informant
name (behaviour.py lines 249-275); structurally identical to the indicator
loop (the informant configs carry the same `enabled` and `candle_period`
fields; the argument bundle differs only in abstracted fields). -/
def informant_conf_results (evalInf : String → IndicatorConf → EvalOutcome)
    (informant : String) (confs : List IndicatorConf)
    (cache : PyDict CandleSeries) :
    Except String (List (RuleResult × IndicatorConf)) :=
  match confs with
  | [] => .ok []
  | conf :: rest =>
    if !conf.enabled then informant_conf_results evalInf informant rest cache
    else
      match pyGet? cache conf.candle_period with
      | none => informant_conf_results evalInf informant rest cache
      | some series =>
        if series.length = 0 then
          informant_conf_results evalInf informant rest cache
        else
          match get_analysis_result (evalInf informant conf) with
          | .error e => .error e
          | .ok r =>
            match informant_conf_results evalInf informant rest cache with
            | .error e => .error e
            | .ok rest1 => .ok ((r, conf) :: rest1)

/-- `_get_informant_results` (behaviour.py lines 228-276). -/
def get_informant_results (dispatcherNames : List String)
    (informantConf : PyDict (List IndicatorConf))
    (cache : PyDict CandleSeries)
    (evalInf : String → IndicatorConf → EvalOutcome) :
    Except String (PyDict (List (RuleResult × IndicatorConf))) :=
  match informantConf with
  | [] => .ok []
  | (informant, confs) :: rest =>
    if dispatcherNames.contains informant then
      match informant_conf_results evalInf informant confs cache with
      | .error e => .error e
      | .ok entries =>
        match get_informant_results dispatcherNames rest cache evalInf with
        | .error e => .error e
        | .ok rest1 => .ok ((informant, entries) :: rest1)
    else
      match get_informant_results dispatcherNames rest cache evalInf with
      | .error e => .error e
      | .ok rest1 => .ok ((informant, []) :: rest1)

/-- Concrete benign analyser stand-in for the C8 witness. -/
def c8eval : String → IndicatorConf → EvalOutcome :=
  fun _ _ => .ok [{ is_hot := true, is_cold := false }]

/-- Concrete indicator configuration for the C8 witness: one config on the
absent 4h period, one on the cached 1h period. -/
def c8indicatorConf : PyDict (List IndicatorConf) :=
  [("rsi", [{ enabled := true, candle_period := "4h" },
            { enabled := true, candle_period := "1h" }])]

/-- Concrete informant configuration for the C8 witness. -/
def c8informantConf : PyDict (List IndicatorConf) :=
  [("ohlcv", [{ enabled := true, candle_period := "4h" }])]

/-- Concrete per-pair cache for the C8 witness: only 1h was fetched. -/
def c8cache : PyDict CandleSeries := [("1h", [5])]

/-- Concrete indicator configuration for the C10 witness: 1h only. -/
def c10indicatorConf : PyDict (List IndicatorConf) :=
  [("rsi", [{ enabled := true, candle_period := "1h" }])]

/-- Concrete informant configuration for the C10 witness: 4h, a period no
enabled indicator config uses. -/
def c10informantConf : PyDict (List IndicatorConf) :=
  [("ohlcv", [{ enabled := true, candle_period := "4h" }])]

/-- The per-exchange slice of a behaviour run's output: market pair →
candle period → rendered messages. -/
abbrev ExchangeRunResult : Type := PyDict (PyDict (List AlertMessage))

/-- `load_exchange` (app.py lines 491-514): a fresh behaviour is built for
the exchange (abstracted as `run`) and on success the exchange's slice of
the output is stored into the shared `new_results` dict, returning it; on
ANY exception the failure is logged per-exchange and the exception is
RE-RAISED (`raise exc` at line 513; the swallowing `return False` is
commented out in the source), so nothing is stored. -/
def load_exchange (run : String → Except String ExchangeRunResult)
    (newResults : PyDict ExchangeRunResult) (exchange : String) :
    Except String (PyDict ExchangeRunResult) :=
  match run exchange with
  | .ok r => .ok (pySet newResults exchange r)
  | .error e => .error e

/-- The result-consuming `as_completed` loop of `load_exchanges` (app.py
lines 523-532): each completed future is logged; the first exception it
encounters is logged and RE-RAISED (line 532), aborting the loop and
failing the scheduled job. -/
def first_run_error (run : String → Except String ExchangeRunResult) :
    List String → Except String Unit
  | [] => .ok ()
  | e :: rest =>
    match run e with
    | .error msg => .error msg
    | .ok _ => first_run_error run rest

/-- One step of phase 1: a successful task stores its results, a failed
one stores nothing. -/
def load_exchanges_step (run : String → Except String ExchangeRunResult)
    (acc : PyDict ExchangeRunResult) (e : String) :
    PyDict ExchangeRunResult :=
  match load_exchange run acc e with
  | .ok acc1 => acc1
  | .error _ => acc

/-- `load_exchanges` (app.py lines 516-532), modelled in two phases.
Phase 1: every exchange is submitted to the worker pool up front, and
because the pool's context manager waits for all submitted tasks on exit,
every task runs to completion regardless of other tasks' outcomes — each
successful `load_exchange` stores its own exchange's results into
`new_results` from inside the task (app.py line 507).  Phase 2: the
consuming `as_completed` loop re-raises the first failure it sees, so the
job ends with an exception whenever any exchange failed.  Returns the
final `new_results` and the job's outcome. -/
def load_exchanges (run : String → Except String ExchangeRunResult)
    (exchanges : List String) :
    PyDict ExchangeRunResult × Except String Unit :=
  (exchanges.foldl (load_exchanges_step run) [],
   first_run_error run exchanges)

/-- A two-exchange cycle in which bittrex fails and binance succeeds. -/
def c9run : String → Except String ExchangeRunResult :=
  fun e =>
    if e = "bittrex" then .error "ExchangeError: bad candle data"
    else .ok [("BTC/USDT", [("1h", [])])]

theorem pyGet_set (d : PyDict α) (k k' : String) (v : α) :
    pyGet? (pySet d k v) k' =
      if k = k' then some v else pyGet? d k' := by
  induction d with
  | nil => simp [pySet, pyGet?]
  | cons hd tl ih =>
    obtain ⟨k0, v0⟩ := hd
    by_cases h0 : k0 = k
    · subst h0
      by_cases h1 : k0 = k'
      · subst h1; simp [pySet, pyGet?]
      · simp [pySet, pyGet?, h1]
    · by_cases h1 : k0 = k'
      · subst h1
        simp [pySet, pyGet?, h0, Ne.symm h0]
      · simp [pySet, pyGet?, h0, h1, ih]

theorem pyGet_append (l1 l2 : PyDict α) (k : String) :
    pyGet? (l1 ++ l2) k =
      match pyGet? l1 k with
      | some v => some v
      | none => pyGet? l2 k := by
  induction l1 with
  | nil => simp [pyGet?]
  | cons hd tl ih =>
    obtain ⟨k0, v0⟩ := hd
    by_cases h0 : k0 = k <;> simp [pyGet?, h0, ih]

theorem pyGet_merge_mapped (old new : PyDict α) (k : String) :
    pyGet? (old.map (fun kv =>
        match pyGet? new kv.1 with
        | some w => (kv.1, w)
        | none => kv)) k =
      match pyGet? old k with
      | some v => some (match pyGet? new k with
        | some w => w
        | none => v)
      | none => none := by
  induction old with
  | nil => simp [pyGet?]
  | cons hd tl ih =>
    obtain ⟨k0, v0⟩ := hd
    by_cases h0 : k0 = k
    · subst h0
      cases hnew : pyGet? new k0 <;> simp [pyGet?, hnew]
    · cases hnew0 : pyGet? new k0 <;> simp [pyGet?, h0, hnew0, ih]

theorem pyGet_merge_filtered (old new : PyDict α) (k : String) :
    pyGet? (new.filter (fun kv => (pyGet? old kv.1).isNone)) k =
      match pyGet? old k with
      | some _ => none
      | none => pyGet? new k := by
  induction new with
  | nil => cases pyGet? old k <;> simp [pyGet?]
  | cons hd tl ih =>
    obtain ⟨k0, v0⟩ := hd
    by_cases h0 : k0 = k
    · subst h0
      cases hold : pyGet? old k0 <;>
        simp [pyGet?, List.filter, hold, ih]
    · cases hold0 : pyGet? old k0 <;>
        cases hold : pyGet? old k <;>
          simp_all [pyGet?, List.filter, hold0, hold, h0, ih]

theorem pyGet_merge (old new : PyDict α) (k : String) :
    pyGet? (pyMerge old new) k =
      match pyGet? new k with
      | some v => some v
      | none => pyGet? old k := by
  rw [pyMerge, pyGet_append, pyGet_merge_mapped, pyGet_merge_filtered]
  cases hold : pyGet? old k <;> cases hnew : pyGet? new k <;> simp

/-- C1: the status derived from the latest result row is `hot` if its
`is_hot` flag is set, else `cold` if its `is_cold` flag is set, else
`neutral` (this is `statusOf`, read off behaviour.py lines 834-838); and an
alert is decided for an entry if and only if that status is hot or cold,
`alert_enabled` is true, and it is not the case that `alert_frequency` is
`"once"` with the prior stored status equal to the new status.  In
particular a neutral status never alerts, regardless of policy or
`alert_enabled`, since the first conjunct then fails. -/
theorem c1_alert_decision_characterization (row : ResultRow)
    (alert_frequency : String) (alert_enabled : Bool) (last_status : String) :
    alert_decision row alert_frequency alert_enabled last_status = true ↔
      ((statusOf row = "hot" ∨ statusOf row = "cold") ∧ alert_enabled = true ∧
        ¬(alert_frequency = "once" ∧ last_status = statusOf row)) := by
  obtain ⟨h, c⟩ := row
  cases h <;> cases c <;>
    cases alert_enabled <;>
      by_cases hf : alert_frequency = "once" <;>
        simp_all [alert_decision, should_alert_decision, statusOf]

/-- Closed instance of the C1 characterization at a concrete input. -/
theorem c1_alert_decision_characterization_witness :
    alert_decision ⟨true, false⟩ "once" true "cold" = true ↔
      ((statusOf ⟨true, false⟩ = "hot" ∨ statusOf ⟨true, false⟩ = "cold") ∧
        true = true ∧
        ¬("once" = "once" ∧ "cold" = statusOf ⟨true, false⟩)) :=
  c1_alert_decision_characterization ⟨true, false⟩ "once" true "cold"

theorem msgsGetPeriod_set (m : Msgs) (e p c : String)
    (v : List AlertMessage) :
    msgsGetPeriod (msgsSetPeriod m e p c v) e p c = v := by
  unfold msgsSetPeriod msgsGetPeriod
  cases hm : pyGet? m e with
  | none => simp [pyGet_set, pyGet?]
  | some pm =>
    cases hp : pyGet? pm p with
    | none => simp [hp, pyGet_set, pyGet?]
    | some cm => simp [hp, pyGet_set]

theorem msgsGetPeriod_set_ne (m : Msgs) (e p c e' p' c' : String)
    (v : List AlertMessage) (h : ¬(e = e' ∧ p = p' ∧ c = c')) :
    msgsGetPeriod (msgsSetPeriod m e p c v) e' p' c' =
      msgsGetPeriod m e' p' c' := by
  unfold msgsSetPeriod msgsGetPeriod
  by_cases he : e = e'
  · subst he
    by_cases hp : p = p'
    · subst hp
      have hc : ¬(c = c') := by
        intro hcc
        exact h ⟨rfl, rfl, hcc⟩
      cases hm : pyGet? m e with
      | none => simp [pyGet_set, pyGet?, hc]
      | some pm =>
        cases hpm : pyGet? pm p with
        | none => simp [pyGet_set, hpm, pyGet?, hc]
        | some cm => simp [pyGet_set, hpm, pyGet_set, hc]
    · cases hm : pyGet? m e with
      | none => simp [pyGet_set, pyGet?, hp, hm]
      | some pm =>
        cases hpm : pyGet? pm p with
        | none => simp [pyGet_set, hpm, pyGet?, hp, hm]
        | some cm => simp [pyGet_set, hpm, hp, hm]
  · cases hm : pyGet? m e with
    | none => simp [pyGet_set, he]
    | some pm =>
      cases hpm : pyGet? pm p with
      | none => simp [hpm, pyGet_set, he]
      | some cm => simp [hpm, pyGet_set, he]

theorem msgsBounded_nil : msgsBounded ([] : Msgs) := by
  intro e p c
  simp [msgsGetPeriod, pyGet?]

theorem msgsBounded_set (m : Msgs) (e p c : String) (v : List AlertMessage)
    (hm : msgsBounded m) (hv : v.length ≤ 1) :
    msgsBounded (msgsSetPeriod m e p c v) := by
  intro e' p' c'
  by_cases hk : e = e' ∧ p = p' ∧ c = c'
  · obtain ⟨h1, h2, h3⟩ := hk
    subst h1; subst h2; subst h3
    rw [msgsGetPeriod_set]
    exact hv
  · rw [msgsGetPeriod_set_ne m e p c e' p' c' v hk]
    exact hm e' p' c'

theorem msgsBounded_initExchange (m : Msgs) (exch : String)
    (hm : msgsBounded m) : msgsBounded (pySet m exch []) := by
  intro e' p' c'
  by_cases he : exch = e'
  · subst he
    simp [msgsGetPeriod, pyGet_set, pyGet?]
  · have heq : msgsGetPeriod (pySet m exch []) e' p' c' =
        msgsGetPeriod m e' p' c' := by
      simp [msgsGetPeriod, pyGet_set, he]
    rw [heq]
    exact hm e' p' c'

theorem msgsBounded_initPairSome (m : Msgs) (exch pair : String)
    (pm : PyDict (PyDict (List AlertMessage)))
    (hget : pyGet? m exch = some pm) (hm : msgsBounded m) :
    msgsBounded (pySet m exch (pySet pm pair [])) := by
  intro e' p' c'
  by_cases he : exch = e'
  · subst he
    by_cases hp : pair = p'
    · subst hp
      simp [msgsGetPeriod, pyGet_set, pyGet?]
    · have heq : msgsGetPeriod (pySet m exch (pySet pm pair [])) exch p' c' =
          msgsGetPeriod m exch p' c' := by
        simp [msgsGetPeriod, pyGet_set, hget, hp]
      rw [heq]
      exact hm exch p' c'
  · have heq : msgsGetPeriod (pySet m exch (pySet pm pair [])) e' p' c' =
        msgsGetPeriod m e' p' c' := by
      simp [msgsGetPeriod, pyGet_set, he]
    rw [heq]
    exact hm e' p' c'

theorem msgsBounded_initPairNone (m : Msgs) (exch pair : String)
    (hm : msgsBounded m) : msgsBounded (pySet m exch [(pair, [])]) := by
  intro e' p' c'
  by_cases he : exch = e'
  · subst he
    by_cases hp : pair = p'
    · subst hp
      simp [msgsGetPeriod, pyGet_set, pyGet?]
    · simp [msgsGetPeriod, pyGet_set, pyGet?, hp]
  · have heq : msgsGetPeriod (pySet m exch [(pair, [])]) e' p' c' =
        msgsGetPeriod m e' p' c' := by
      simp [msgsGetPeriod, pyGet_set, he]
    rw [heq]
    exact hm e' p' c'

theorem processEntry_bounded (exch pair kind ind : String) (idx : Nat)
    (entry : AnalysisEntry) (st : LoopState) (e1 : AnalysisEntry)
    (st' : LoopState) (hb : msgsBounded st.messages)
    (h : processEntry exch pair kind ind idx entry st = .ok (e1, st')) :
    msgsBounded st'.messages := by
  cases hres : entry.result with
  | emptyStr => simp [processEntry, hres, resultShape] at h
  | table rows =>
    by_cases h0 : rows.length = 0
    · simp [processEntry, hres, resultShape, h0] at h
      obtain ⟨-, h2⟩ := h
      rw [← h2]
      exact hb
    · cases hcp : entry.config.candle_period with
      | none =>
        simp only [processEntry, hres, resultShape, h0, if_false, hcp] at h
        split at h
        · split at h
          · simp at h
          · simp at h
            obtain ⟨-, h2⟩ := h
            rw [← h2]
            exact hb
        · simp at h
          obtain ⟨-, h2⟩ := h
          rw [← h2]
          exact hb
      | some cp =>
        simp only [processEntry, hres, resultShape, h0, if_false, hcp] at h
        split at h
        · split at h
          · simp at h
            obtain ⟨-, h2⟩ := h
            rw [← h2]
            simp only [msgsGetPeriod_set]
            exact msgsBounded_set _ _ _ _ _
              (msgsBounded_set _ _ _ _ _ hb (by simp)) (by simp)
          · simp at h
            obtain ⟨-, h2⟩ := h
            rw [← h2]
            exact msgsBounded_set _ _ _ _ _ hb (by simp)
        · simp at h
          obtain ⟨-, h2⟩ := h
          rw [← h2]
          exact msgsBounded_set _ _ _ _ _ hb (by simp)

theorem processEntries_bounded (exch pair kind ind : String) (idx : Nat)
    (entries : List AnalysisEntry) (st : LoopState)
    (out : List AnalysisEntry) (st' : LoopState)
    (hb : msgsBounded st.messages)
    (h : processEntries exch pair kind ind idx entries st = .ok (out, st')) :
    msgsBounded st'.messages := by
  induction entries generalizing idx st out with
  | nil =>
    simp [processEntries] at h
    rw [← h.2]
    exact hb
  | cons e rest ih =>
    rw [processEntries] at h
    cases h1 : processEntry exch pair kind ind idx e st with
    | error msg => rw [h1] at h; simp at h
    | ok p1 =>
      obtain ⟨e1, st1⟩ := p1
      rw [h1] at h
      simp only at h
      cases h2 : processEntries exch pair kind ind (idx + 1) rest st1 with
      | error msg => rw [h2] at h; simp at h
      | ok p2 =>
        obtain ⟨rest1, st2⟩ := p2
        rw [h2] at h
        simp at h
        obtain ⟨h3, h4⟩ := h
        subst h4
        exact ih (idx + 1) st1 rest1
          (processEntry_bounded exch pair kind ind idx e st e1 st1 hb h1) h2

theorem processIndicators_bounded (exch pair kind : String)
    (im : IndicatorMap) (st : LoopState) (out : IndicatorMap)
    (st' : LoopState) (hb : msgsBounded st.messages)
    (h : processIndicators exch pair kind im st = .ok (out, st')) :
    msgsBounded st'.messages := by
  induction im generalizing st out with
  | nil =>
    simp [processIndicators] at h
    rw [← h.2]
    exact hb
  | cons hd rest ih =>
    obtain ⟨ind, entries⟩ := hd
    rw [processIndicators] at h
    cases h1 : processEntries exch pair kind ind 0 entries st with
    | error msg => rw [h1] at h; simp at h
    | ok p1 =>
      obtain ⟨entries1, st1⟩ := p1
      rw [h1] at h
      simp only at h
      cases h2 : processIndicators exch pair kind rest st1 with
      | error msg => rw [h2] at h; simp at h
      | ok p2 =>
        obtain ⟨rest1, st2⟩ := p2
        rw [h2] at h
        simp at h
        obtain ⟨h3, h4⟩ := h
        subst h4
        exact ih st1 rest1
          (processEntries_bounded exch pair kind ind 0 entries st entries1 st1 hb h1) h2

theorem processKinds_bounded (exch pair : String) (pa : PairAnalysis)
    (st : LoopState) (out : PairAnalysis) (st' : LoopState)
    (hb : msgsBounded st.messages)
    (h : processKinds exch pair pa st = .ok (out, st')) :
    msgsBounded st'.messages := by
  induction pa generalizing st out with
  | nil =>
    simp [processKinds] at h
    rw [← h.2]
    exact hb
  | cons hd rest ih =>
    obtain ⟨kind, im⟩ := hd
    rw [processKinds] at h
    by_cases hk : kind = "informants"
    · rw [if_pos hk] at h
      cases h1 : processKinds exch pair rest st with
      | error msg => rw [h1] at h; simp at h
      | ok p1 =>
        obtain ⟨rest1, st1⟩ := p1
        rw [h1] at h
        simp at h
        obtain ⟨h3, h4⟩ := h
        subst h4
        exact ih st rest1 hb h1
    · rw [if_neg hk] at h
      cases h1 : processIndicators exch pair kind im st with
      | error msg => rw [h1] at h; simp at h
      | ok p1 =>
        obtain ⟨im1, st1⟩ := p1
        rw [h1] at h
        simp only at h
        cases h2 : processKinds exch pair rest st1 with
        | error msg => rw [h2] at h; simp at h
        | ok p2 =>
          obtain ⟨rest1, st2⟩ := p2
          rw [h2] at h
          simp at h
          obtain ⟨h3, h4⟩ := h
          subst h4
          exact ih st1 rest1
            (processIndicators_bounded exch pair kind im st im1 st1 hb h1) h2

theorem processPairs_bounded (exch : String) (ea : ExchangeAnalysis)
    (st : LoopState) (out : ExchangeAnalysis) (st' : LoopState)
    (hb : msgsBounded st.messages)
    (h : processPairs exch ea st = .ok (out, st')) :
    msgsBounded st'.messages := by
  induction ea generalizing st out with
  | nil =>
    simp [processPairs] at h
    rw [← h.2]
    exact hb
  | cons hd rest ih =>
    obtain ⟨pair, pa⟩ := hd
    rw [processPairs] at h
    cases hg : pyGet? st.messages exch with
    | none =>
      rw [hg] at h
      simp only at h
      cases h1 : processKinds exch pair pa
          { lastAnalysis := st.lastAnalysis, aliased := st.aliased,
            messages := pySet st.messages exch [(pair, [])] } with
      | error msg => rw [h1] at h; simp at h
      | ok p1 =>
        obtain ⟨pa1, st1⟩ := p1
        rw [h1] at h
        simp only at h
        cases h2 : processPairs exch rest st1 with
        | error msg => rw [h2] at h; simp at h
        | ok p2 =>
          obtain ⟨rest1, st2⟩ := p2
          rw [h2] at h
          simp at h
          obtain ⟨h3, h4⟩ := h
          subst h4
          exact ih st1 rest1
            (processKinds_bounded exch pair pa _ pa1 st1
              (msgsBounded_initPairNone _ _ _ hb) h1) h2
    | some pm =>
      rw [hg] at h
      simp only at h
      cases h1 : processKinds exch pair pa
          { lastAnalysis := st.lastAnalysis, aliased := st.aliased,
            messages := pySet st.messages exch (pySet pm pair []) } with
      | error msg => rw [h1] at h; simp at h
      | ok p1 =>
        obtain ⟨pa1, st1⟩ := p1
        rw [h1] at h
        simp only at h
        cases h2 : processPairs exch rest st1 with
        | error msg => rw [h2] at h; simp at h
        | ok p2 =>
          obtain ⟨rest1, st2⟩ := p2
          rw [h2] at h
          simp at h
          obtain ⟨h3, h4⟩ := h
          subst h4
          exact ih st1 rest1
            (processKinds_bounded exch pair pa _ pa1 st1
              (msgsBounded_initPairSome _ _ _ pm hg hb) h1) h2

theorem processExchanges_bounded (a : Analysis) (st : LoopState)
    (out : Analysis) (st' : LoopState) (hb : msgsBounded st.messages)
    (h : processExchanges a st = .ok (out, st')) :
    msgsBounded st'.messages := by
  induction a generalizing st out with
  | nil =>
    simp [processExchanges] at h
    rw [← h.2]
    exact hb
  | cons hd rest ih =>
    obtain ⟨exch, ea⟩ := hd
    rw [processExchanges] at h
    cases h1 : processPairs exch ea
        { lastAnalysis := st.lastAnalysis, aliased := st.aliased,
          messages := pySet st.messages exch [] } with
    | error msg => rw [h1] at h; simp at h
    | ok p1 =>
      obtain ⟨ea1, st1⟩ := p1
      rw [h1] at h
      simp only at h
      cases h2 : processExchanges rest st1 with
      | error msg => rw [h2] at h; simp at h
      | ok p2 =>
        obtain ⟨rest1, st2⟩ := p2
        rw [h2] at h
        simp at h
        obtain ⟨h3, h4⟩ := h
        subst h4
        exact ih st1 rest1
          (processPairs_bounded exch ea _ ea1 st1
            (msgsBounded_initExchange _ _ hb) h1) h2

/-- C2 counterexample: on the very first run after the analyzer is
constructed (`self.last_analysis` empty), an entry with `alert_frequency`
`once`, `alert_enabled` true and new status hot emits NO alert, contrary
to the claim: behaviour.py lines 750-751 make `self.last_analysis` an
alias of `new_analysis`, so the prior-status lookup at line 845 finds the
status written at line 841 for this very entry, and the once policy
suppresses.  The per-period message list for the entry stays empty. -/
theorem c2_first_run_counterexample :
    (get_indicator_messages [] c2newAnalysis).toOption.map
      (fun p => msgsGetPeriod p.1 "binance" "BTC/USDT" "1h") = some [] := by
  decide

/-- C2 corrected: the prior-status lookup treats a coordinate absent from
the stored history as the empty string, distinct from every concrete
status, so an entry with the once policy, alerts enabled and a hot latest
row alerts with `last_status = ""` — but only on runs after the first
(`aliased = false`).  On the first run `self.last_analysis` is an alias of
`new_analysis`, the lookup returns the status just written for this entry,
and the once policy suppresses the alert: the entry's period list is left
at the freshly reset empty list. -/
theorem c2_prior_status_lookup (exch pair kind ind : String) (idx : Nat)
    (cp : String) (st : LoopState) (entry : AnalysisEntry)
    (hres : entry.result = .table [{ is_hot := true, is_cold := false }])
    (hcfg : entry.config = { candle_period := some cp,
                             alert_frequency := "once",
                             alert_enabled := true }) :
    (st.aliased = true →
      processEntry exch pair kind ind idx entry st = .ok
        ({ result := entry.result, config := entry.config,
           status := some "hot" },
         { lastAnalysis := st.lastAnalysis, aliased := st.aliased,
           messages := msgsSetPeriod st.messages exch pair cp [] })) ∧
    (st.aliased = false → pyGet? st.lastAnalysis exch = none →
      ∃ st1 : LoopState,
        processEntry exch pair kind ind idx entry st = .ok
          ({ result := entry.result, config := entry.config,
             status := some "hot" }, st1) ∧
        msgsGetPeriod st1.messages exch pair cp =
          [{ exchange := exch, pair := pair, indicator := ind, index := idx,
             status := "hot", last_status := "" }]) := by
  constructor
  · intro ha
    simp [processEntry, hres, hcfg, resultShape, resultLatest, statusOf,
      lookupLastStatus, ha, should_alert_decision]
  · intro ha hnone
    refine ⟨{ lastAnalysis := st.lastAnalysis,
              aliased := st.aliased,
              messages :=
                msgsSetPeriod (msgsSetPeriod st.messages exch pair cp [])
                  exch pair cp
                  [{ exchange := exch, pair := pair, indicator := ind,
                     index := idx, status := "hot",
                     last_status := "" }] }, ?_, ?_⟩
    · simp [processEntry, hres, hcfg, resultShape, resultLatest, statusOf,
        lookupLastStatus, ha, hnone, should_alert_decision, msgsGetPeriod_set]
    · simp [msgsGetPeriod_set]

/-- Closed instance of the corrected C2 statement: first-run suppression
for a concrete once-policy hot entry. -/
theorem c2_prior_status_lookup_witness :
    processEntry "binance" "BTC/USDT" "indicators" "rsi" 0 onceHotEntry
      { lastAnalysis := [], aliased := true, messages := [] } = .ok
      ({ result := onceHotEntry.result, config := onceHotEntry.config,
         status := some "hot" },
       { lastAnalysis := [], aliased := true,
         messages := msgsSetPeriod [] "binance" "BTC/USDT" "1h" [] }) :=
  (c2_prior_status_lookup "binance" "BTC/USDT" "indicators" "rsi" 0 "1h"
    { lastAnalysis := [], aliased := true, messages := [] }
    onceHotEntry rfl rfl).1 rfl

/-- C3 counterexample: BTC/USDT is present in the old history and absent
from the new run's results, yet after the merge at behaviour.py line 886
the stored history no longer contains it — the `{**old, **new}` merge
replaces the whole `binance` subtree instead of retaining the old pair
entry, contrary to the claim. -/
theorem c3_pair_dropped_counterexample :
    ((pyGet? c3lastAnalysis "binance").getD []).any
        (fun kv => kv.1 == "BTC/USDT") = true ∧
    ((pyGet? c3newAnalysis "binance").getD []).any
        (fun kv => kv.1 == "BTC/USDT") = false ∧
    (get_indicator_messages c3lastAnalysis c3newAnalysis).toOption.map
      (fun p => ((pyGet? p.2 "binance").getD []).any
        (fun kv => kv.1 == "BTC/USDT")) = some false := by
  decide

/-- C3 corrected: the history merge of behaviour.py line 886 is shallow
and operates on top-level (exchange) keys only: an exchange absent from
the new run retains its old entry unchanged, while an exchange present in
the new run has its entire old subtree replaced wholesale — so pairs,
kinds or indices present only in the old history under such an exchange
are deleted rather than retained. -/
theorem c3_history_merge_exchange_level (old new : Analysis) (k : String) :
    pyGet? (pyMerge old new) k =
      (pyGet? new k).orElse (fun _ => pyGet? old k) := by
  rw [pyGet_merge]
  cases hnew : pyGet? new k <;> simp [Option.orElse]

/-- C4 counterexample: each of the two entries qualifies on its own (the
single-entry run emits its message, second conjunct), yet the two-entry
run ends with only ONE message for (BTC/USDT, 1h) — the later entry's —
because behaviour.py line 799 re-initialises the period's list for every
processed entry, losing the earlier append, contrary to the claim that
all n qualifying messages accumulate. -/
theorem c4_messages_overwritten_counterexample :
    (get_indicator_messages [("seed", [])] c4newAnalysis).toOption.map
      (fun p => msgsGetPeriod p.1 "binance" "BTC/USDT" "1h") =
      some [{ exchange := "binance", pair := "BTC/USDT", indicator := "rsi",
              index := 1, status := "hot", last_status := "" }] ∧
    (get_indicator_messages [("seed", [])] c4newAnalysisSingle).toOption.map
      (fun p => msgsGetPeriod p.1 "binance" "BTC/USDT" "1h") =
      some [{ exchange := "binance", pair := "BTC/USDT", indicator := "rsi",
              index := 0, status := "hot", last_status := "" }] := by
  decide

/-- C4 corrected: because every processed entry bearing a candle period
re-initialises that period's message list before (possibly) appending its
own message, a (pair, period) list never accumulates: after the whole
message pass every per-period list holds at most one message — the last
qualifying entry's — rather than one message per qualifying entry. -/
theorem c4_at_most_one_message_per_period (lastA newA : Analysis)
    (m : Msgs) (a1 : Analysis)
    (h : get_indicator_messages lastA newA = .ok (m, a1))
    (e p c : String) : (msgsGetPeriod m e p c).length ≤ 1 := by
  simp only [get_indicator_messages] at h
  cases h1 : processExchanges newA
      { lastAnalysis := lastA, aliased := lastA.isEmpty,
        messages := [] } with
  | error msg => rw [h1] at h; simp at h
  | ok p1 =>
    obtain ⟨newA1, st1⟩ := p1
    rw [h1] at h
    simp at h
    rw [← h.1]
    exact processExchanges_bounded newA _ newA1 st1 msgsBounded_nil h1 e p c

/-- Closed instance of the corrected C4 statement. -/
theorem c4_at_most_one_message_per_period_witness :
    (msgsGetPeriod c4witnessRun.1 "binance" "BTC/USDT" "1h").length ≤ 1 :=
  c4_at_most_one_message_per_period [("seed", [])] c4newAnalysis
    c4witnessRun.1 c4witnessRun.2 rfl "binance" "BTC/USDT" "1h"

/-- C6: the evaluator does catch the failure and returns an empty result
instead of propagating (first conjunct, behaviour.py lines 380-390 with
`results = str()`), but downstream message generation does NOT proceed
without crashing: the emptiness check `analysis['result'].shape[0] == 0`
at line 793 evaluates `.shape` on a `str` and raises `AttributeError`,
aborting the whole message pass (second conjunct).  The claim describes
the evident intent of the line-793 guard; the string sentinel makes the
code crash there instead. -/
theorem c6_empty_result_crashes_message_pass :
    get_analysis_result .typeError = .ok .emptyStr ∧
    get_indicator_messages [("seed", [])] c6newAnalysis =
      .error "AttributeError: str object has no attribute shape" :=
  ⟨rfl, rfl⟩

/-- C5 counterexample: an enabled crossover entry whose reference index is
beyond the configured list length raises a plain `IndexError` (there is no
`UnresolvedReference` anywhere in the code) and the exception propagates
out of `_get_crossover_results`: the sibling entry of the same name, which
resolves fine on its own (second conjunct), produces nothing, and the
pair's crossover analysis is aborted rather than the one entry being
skipped. -/
theorem c5_reference_failure_counterexample :
    get_crossover_results ["std_crossover"] c5dispatch
      [("std_crossover", [c5badConf, c5goodConf])] c5pairResult =
      .error "IndexError: list index out of range" ∧
    get_crossover_results ["std_crossover"] c5dispatch
      [("std_crossover", [c5goodConf])] c5pairResult =
      .ok [("std_crossover",
        [(RuleResult.table [{ is_hot := true, is_cold := false }],
          c5goodConf)])] :=
  ⟨rfl, rfl⟩

/-- C5 corrected: an enabled crossover configuration whose source
reference does not resolve raises a plain `KeyError`/`IndexError` (not an
`UnresolvedReference`), which is not caught per entry: it propagates out
of the configuration loop and out of `_get_crossover_results`, so the
remaining crossover entries of the pair are abandoned along with the whole
pair's crossover results.  Shown here for a missing reference type key at
the head of the list, with arbitrary sibling entries behind it. -/
theorem c5_unresolved_reference_propagates
    (dispatcherNames : List String)
    (dispatch : String → CrossoverConf → RuleResult → RuleResult → RuleResult)
    (crossover : String) (conf : CrossoverConf)
    (rest : List CrossoverConf) (restConf : PyDict (List CrossoverConf))
    (newResult : PairAnalysis)
    (hen : conf.enabled = true)
    (hmiss : pyGet? newResult conf.key_indicator_type = none)
    (hdisp : dispatcherNames.contains crossover = true) :
    crossover_conf_loop dispatch crossover (conf :: rest) newResult =
      .error ("KeyError: " ++ conf.key_indicator_type) ∧
    get_crossover_results dispatcherNames dispatch
      ((crossover, conf :: rest) :: restConf) newResult =
      .error ("KeyError: " ++ conf.key_indicator_type) := by
  have hloop : crossover_conf_loop dispatch crossover (conf :: rest)
      newResult = .error ("KeyError: " ++ conf.key_indicator_type) := by
    simp [crossover_conf_loop, hen, pyIndexDict, hmiss]
  refine ⟨hloop, ?_⟩
  rw [get_crossover_results, hdisp]
  simp [hloop]

/-- Closed instance of the corrected C5 statement. -/
theorem c5_unresolved_reference_propagates_witness :
    crossover_conf_loop c5dispatch "std_crossover"
      [c5missingTypeConf, c5goodConf] c5pairResult =
      .error ("KeyError: " ++ c5missingTypeConf.key_indicator_type) ∧
    get_crossover_results ["std_crossover"] c5dispatch
      [("std_crossover", [c5missingTypeConf, c5goodConf])] c5pairResult =
      .error ("KeyError: " ++ c5missingTypeConf.key_indicator_type) :=
  c5_unresolved_reference_propagates ["std_crossover"] c5dispatch
    "std_crossover" c5missingTypeConf [c5goodConf] [] c5pairResult
    rfl rfl rfl

theorem countOccur_append (cp : String) (l1 l2 : List String) :
    countOccur cp (l1 ++ l2) = countOccur cp l1 + countOccur cp l2 := by
  induction l1 with
  | nil => simp [countOccur]
  | cons x rest ih => simp [countOccur, ih]; omega

theorem history_conf_loop_preserves (fetch : String → CandleSeries)
    (cp : String) (confs : List IndicatorConf) (cache : PyDict CandleSeries)
    (log : List String) (v : CandleSeries)
    (hv : pyGet? cache cp = some v) :
    pyGet? (history_conf_loop fetch confs cache log).1 cp = some v ∧
    countOccur cp (history_conf_loop fetch confs cache log).2 =
      countOccur cp log := by
  induction confs generalizing cache log with
  | nil => simp [history_conf_loop, hv]
  | cons conf rest ih =>
    by_cases hen : conf.enabled
    · by_cases hcp : conf.candle_period = cp
      · rw [history_conf_loop]
        rw [hcp, hv]
        simp only [hen, if_true]
        exact ih cache log hv
      · rw [history_conf_loop]
        simp only [hen, if_true]
        cases hc : pyGet? cache conf.candle_period with
        | some w => exact ih cache log hv
        | none =>
          by_cases hlen : (fetch conf.candle_period).length = 0
          · simp only [hlen, if_true]
            have := ih cache (log ++ [conf.candle_period]) hv
            rw [countOccur_append] at this
            simpa [countOccur, hcp] using this
          · simp only [hlen, if_false]
            have hv2 : pyGet? (pySet cache conf.candle_period
                (fetch conf.candle_period)) cp = some v := by
              rw [pyGet_set, if_neg hcp]
              exact hv
            have := ih (pySet cache conf.candle_period
              (fetch conf.candle_period)) (log ++ [conf.candle_period]) hv2
            rw [countOccur_append] at this
            simpa [countOccur, hcp] using this
    · rw [history_conf_loop]
      simp only [hen, if_false]
      exact ih cache log hv

theorem history_conf_loop_empty_not_cached (fetch : String → CandleSeries)
    (cp : String) (confs : List IndicatorConf) (cache : PyDict CandleSeries)
    (log : List String) (hfe : fetch cp = [])
    (hnone : pyGet? cache cp = none) :
    pyGet? (history_conf_loop fetch confs cache log).1 cp = none := by
  induction confs generalizing cache log with
  | nil => simp [history_conf_loop, hnone]
  | cons conf rest ih =>
    by_cases hen : conf.enabled
    · rw [history_conf_loop]
      simp only [hen, if_true]
      by_cases hcp : conf.candle_period = cp
      · rw [hcp, hnone, hfe]
        simp only [List.length_nil, if_pos rfl]
        exact ih cache (log ++ [cp]) hnone
      · cases hc : pyGet? cache conf.candle_period with
        | some w => exact ih cache log hnone
        | none =>
          by_cases hlen : (fetch conf.candle_period).length = 0
          · simp only [hlen, if_true]
            exact ih cache (log ++ [conf.candle_period]) hnone
          · simp only [hlen, if_false]
            have hnone2 : pyGet? (pySet cache conf.candle_period
                (fetch conf.candle_period)) cp = none := by
              rw [pyGet_set, if_neg hcp]
              exact hnone
            exact ih _ (log ++ [conf.candle_period]) hnone2
    · rw [history_conf_loop]
      simp only [hen, if_false]
      exact ih cache log hnone

theorem history_conf_loop_fetch_bound (fetch : String → CandleSeries)
    (cp : String) (confs : List IndicatorConf) (cache : PyDict CandleSeries)
    (log : List String) (hfne : fetch cp ≠ [])
    (hnone : pyGet? cache cp = none) :
    countOccur cp (history_conf_loop fetch confs cache log).2 ≤
      countOccur cp log + 1 ∧
    ((pyGet? (history_conf_loop fetch confs cache log).1 cp =
        some (fetch cp) ∧
      countOccur cp (history_conf_loop fetch confs cache log).2 ≤
        countOccur cp log + 1) ∨
     (pyGet? (history_conf_loop fetch confs cache log).1 cp = none ∧
      countOccur cp (history_conf_loop fetch confs cache log).2 =
        countOccur cp log)) := by
  induction confs generalizing cache log with
  | nil =>
    simp [history_conf_loop, hnone]
  | cons conf rest ih =>
    by_cases hen : conf.enabled
    · rw [history_conf_loop]
      simp only [hen, if_true]
      by_cases hcp : conf.candle_period = cp
      · rw [hcp, hnone]
        have hlen : ¬((fetch cp).length = 0) := by
          intro h0
          exact hfne (List.length_eq_zero.mp h0)
        simp only [hlen, if_false]
        have hv2 : pyGet? (pySet cache cp (fetch cp)) cp = some (fetch cp) := by
          rw [pyGet_set, if_pos rfl]
        have hpres := history_conf_loop_preserves fetch cp rest
          (pySet cache cp (fetch cp)) (log ++ [cp]) (fetch cp) hv2
        rw [countOccur_append] at hpres
        constructor
        · rw [hpres.2]
          simp [countOccur]
        · left
          refine ⟨hpres.1, ?_⟩
          rw [hpres.2]
          simp [countOccur]
      · cases hc : pyGet? cache conf.candle_period with
        | some w => exact ih cache log hnone
        | none =>
          by_cases hlen : (fetch conf.candle_period).length = 0
          · simp only [hlen, if_true]
            have := ih cache (log ++ [conf.candle_period]) hnone
            rw [countOccur_append] at this
            simpa [countOccur, hcp] using this
          · simp only [hlen, if_false]
            have hnone2 : pyGet? (pySet cache conf.candle_period
                (fetch conf.candle_period)) cp = none := by
              rw [pyGet_set, if_neg hcp]
              exact hnone
            have := ih (pySet cache conf.candle_period
              (fetch conf.candle_period)) (log ++ [conf.candle_period]) hnone2
            rw [countOccur_append] at this
            simpa [countOccur, hcp] using this
    · rw [history_conf_loop]
      simp only [hen, if_false]
      exact ih cache log hnone

theorem history_indicator_loop_preserves (dispatcherNames : List String)
    (fetch : String → CandleSeries) (cp : String)
    (indicatorConf : PyDict (List IndicatorConf))
    (cache : PyDict CandleSeries) (log : List String) (v : CandleSeries)
    (hv : pyGet? cache cp = some v) :
    pyGet? (history_indicator_loop dispatcherNames fetch indicatorConf
      cache log).1 cp = some v ∧
    countOccur cp (history_indicator_loop dispatcherNames fetch
      indicatorConf cache log).2 = countOccur cp log := by
  induction indicatorConf generalizing cache log with
  | nil => simp [history_indicator_loop, hv]
  | cons hd rest ih =>
    obtain ⟨ind, confs⟩ := hd
    rw [history_indicator_loop]
    by_cases hd2 : dispatcherNames.contains ind
    · simp only [hd2, if_true]
      have h1 := history_conf_loop_preserves fetch cp confs cache log v hv
      have h2 := ih (history_conf_loop fetch confs cache log).1
        (history_conf_loop fetch confs cache log).2 h1.1
      exact ⟨h2.1, by rw [h2.2, h1.2]⟩
    · simp only [hd2, if_false]
      exact ih cache log hv

theorem history_indicator_loop_empty_not_cached
    (dispatcherNames : List String) (fetch : String → CandleSeries)
    (cp : String) (indicatorConf : PyDict (List IndicatorConf))
    (cache : PyDict CandleSeries) (log : List String)
    (hfe : fetch cp = []) (hnone : pyGet? cache cp = none) :
    pyGet? (history_indicator_loop dispatcherNames fetch indicatorConf
      cache log).1 cp = none := by
  induction indicatorConf generalizing cache log with
  | nil => simp [history_indicator_loop, hnone]
  | cons hd rest ih =>
    obtain ⟨ind, confs⟩ := hd
    rw [history_indicator_loop]
    by_cases hd2 : dispatcherNames.contains ind
    · simp only [hd2, if_true]
      exact ih _ _ (history_conf_loop_empty_not_cached fetch cp confs
        cache log hfe hnone)
    · simp only [hd2, if_false]
      exact ih cache log hnone

theorem history_indicator_loop_fetch_bound (dispatcherNames : List String)
    (fetch : String → CandleSeries) (cp : String)
    (indicatorConf : PyDict (List IndicatorConf))
    (cache : PyDict CandleSeries) (log : List String)
    (hfne : fetch cp ≠ []) (hnone : pyGet? cache cp = none) :
    (pyGet? (history_indicator_loop dispatcherNames fetch indicatorConf
        cache log).1 cp = some (fetch cp) ∧
      countOccur cp (history_indicator_loop dispatcherNames fetch
        indicatorConf cache log).2 ≤ countOccur cp log + 1) ∨
    (pyGet? (history_indicator_loop dispatcherNames fetch indicatorConf
        cache log).1 cp = none ∧
      countOccur cp (history_indicator_loop dispatcherNames fetch
        indicatorConf cache log).2 = countOccur cp log) := by
  induction indicatorConf generalizing cache log with
  | nil =>
    right
    simp [history_indicator_loop, hnone]
  | cons hd rest ih =>
    obtain ⟨ind, confs⟩ := hd
    rw [history_indicator_loop]
    by_cases hd2 : dispatcherNames.contains ind
    · simp only [hd2, if_true]
      have h1 := history_conf_loop_fetch_bound fetch cp confs cache log
        hfne hnone
      rcases h1.2 with ⟨hsome, hcnt⟩ | ⟨hnone1, hcnt⟩
      · have h2 := history_indicator_loop_preserves dispatcherNames fetch cp
          rest (history_conf_loop fetch confs cache log).1
          (history_conf_loop fetch confs cache log).2 (fetch cp) hsome
        left
        exact ⟨h2.1, by rw [h2.2]; exact hcnt⟩
      · have h2 := ih (history_conf_loop fetch confs cache log).1
          (history_conf_loop fetch confs cache log).2 hnone1
        rcases h2 with ⟨hs, hc⟩ | ⟨hn, hc⟩
        · left
          exact ⟨hs, by rw [hcnt] at hc; exact hc⟩
        · right
          exact ⟨hn, by rw [hc, hcnt]⟩
    · simp only [hd2, if_false]
      exact ih cache log hnone

/-- C7 counterexample: when the fetch returns an empty series, the period
is NOT recorded in the cache (behaviour.py line 117 `continue`s before the
store), so the second enabled config with the same period triggers a
second fetch — the fetch log holds two entries for (pair, 1h), and the
cache ends empty, contrary to "at most one fetch" and "cached as empty, a
state distinct from not fetched".  A non-empty fetch (second conjunct) is
stored and fetched only once. -/
theorem c7_empty_fetch_refetched_counterexample :
    get_all_historical_data_pair ["rsi"] c7conf (fun _ => []) =
      ([], ["1h", "1h"]) ∧
    get_all_historical_data_pair ["rsi"] c7conf (fun _ => [5]) =
      ([("1h", [5])], ["1h"]) :=
  ⟨rfl, rfl⟩

/-- C7 corrected: within one run, for a given (exchange, pair), a candle
period whose fetch returns a NON-empty series is fetched at most once —
the stored series short-circuits later configs needing the same period.
But a period whose fetch returns the empty series is not cached at all:
the per-pair cache ends with no entry for it (absence, not a distinct
"empty" state), and each subsequent enabled config naming that period
fetches again (see the counterexample for the repeated fetch). -/
theorem c7_fetch_caching (dispatcherNames : List String)
    (indicatorConf : PyDict (List IndicatorConf))
    (fetch : String → CandleSeries) (cp : String) :
    (fetch cp ≠ [] →
      countOccur cp (get_all_historical_data_pair dispatcherNames
        indicatorConf fetch).2 ≤ 1) ∧
    (fetch cp = [] →
      pyGet? (get_all_historical_data_pair dispatcherNames
        indicatorConf fetch).1 cp = none) := by
  constructor
  · intro hfne
    have hb := history_indicator_loop_fetch_bound dispatcherNames fetch cp
      indicatorConf [] [] hfne (by simp [pyGet?])
    simp only [get_all_historical_data_pair]
    rcases hb with ⟨-, hc⟩ | ⟨-, hc⟩ <;> simp [countOccur] at hc <;> omega
  · intro hfe
    exact history_indicator_loop_empty_not_cached dispatcherNames fetch cp
      indicatorConf [] [] hfe (by simp [pyGet?])

/-- Closed instance of the corrected C7 statement: the non-empty fetch is
performed at most once. -/
theorem c7_fetch_caching_witness :
    countOccur "1h" (get_all_historical_data_pair ["rsi"] c7conf
      (fun _ => [5])).2 ≤ 1 :=
  (c7_fetch_caching ["rsi"] c7conf (fun _ => [5]) "1h").1 (by decide)

theorem indicator_conf_results_period_absent
    (evalInd : String → IndicatorConf → EvalOutcome) (indicator : String)
    (confs : List IndicatorConf) (cache : PyDict CandleSeries) (cp : String)
    (hcp : pyGet? cache cp = none)
    (out : List (RuleResult × IndicatorConf))
    (h : indicator_conf_results evalInd indicator confs cache = .ok out) :
    ∀ rc ∈ out, rc.2.candle_period ≠ cp := by
  induction confs generalizing out with
  | nil =>
    simp [indicator_conf_results] at h
    subst h
    intro rc hrc
    simp at hrc
  | cons conf rest ih =>
    rw [indicator_conf_results] at h
    cases hen : conf.enabled with
    | false =>
      simp only [hen, Bool.not_false, if_true] at h
      exact ih out h
    | true =>
      simp only [hen, Bool.not_true, if_false] at h
      cases hc : pyGet? cache conf.candle_period with
      | none =>
        rw [hc] at h
        exact ih out h
      | some series =>
        rw [hc] at h
        simp only at h
        by_cases hlen : series.length = 0
        · simp only [hlen, if_true] at h
          exact ih out h
        · simp only [hlen, if_false] at h
          cases hr : get_analysis_result (evalInd indicator conf) with
          | error e => rw [hr] at h; simp at h
          | ok r =>
            rw [hr] at h
            simp only at h
            cases hrest : indicator_conf_results evalInd indicator rest cache with
            | error e => rw [hrest] at h; simp at h
            | ok rest1 =>
              rw [hrest] at h
              simp at h
              subst h
              intro rc hrc
              rcases List.mem_cons.mp hrc with hrc1 | hrc1
              · subst hrc1
                intro hcpe
                rw [hcpe] at hc
                rw [hc] at hcp
                cases hcp
              · exact ih rest1 hrest rc hrc1

theorem get_indicator_results_period_absent (dispatcherNames : List String)
    (indicatorConf : PyDict (List IndicatorConf))
    (cache : PyDict CandleSeries)
    (evalInd : String → IndicatorConf → EvalOutcome) (cp : String)
    (hcp : pyGet? cache cp = none)
    (out : PyDict (List (RuleResult × IndicatorConf)))
    (h : get_indicator_results dispatcherNames indicatorConf cache evalInd =
      .ok out) :
    ∀ p ∈ out, ∀ rc ∈ p.2, rc.2.candle_period ≠ cp := by
  induction indicatorConf generalizing out with
  | nil =>
    simp [get_indicator_results] at h
    subst h
    intro p hp
    simp at hp
  | cons hd rest ih =>
    obtain ⟨indicator, confs⟩ := hd
    rw [get_indicator_results] at h
    by_cases hd2 : dispatcherNames.contains indicator
    · simp only [hd2, if_true] at h
      cases h1 : indicator_conf_results evalInd indicator confs cache with
      | error e => rw [h1] at h; simp at h
      | ok entries =>
        rw [h1] at h
        simp only at h
        cases h2 : get_indicator_results dispatcherNames rest cache evalInd with
        | error e => rw [h2] at h; simp at h
        | ok rest1 =>
          rw [h2] at h
          simp at h
          subst h
          intro p hp
          rcases List.mem_cons.mp hp with hp1 | hp1
          · subst hp1
            intro rc hrc
            exact indicator_conf_results_period_absent evalInd indicator
              confs cache cp hcp entries h1 rc hrc
          · exact ih rest1 h2 p hp1
    · simp only [hd2, if_false] at h
      cases h2 : get_indicator_results dispatcherNames rest cache evalInd with
      | error e => rw [h2] at h; simp at h
      | ok rest1 =>
        rw [h2] at h
        simp at h
        subst h
        intro p hp
        rcases List.mem_cons.mp hp with hp1 | hp1
        · subst hp1
          intro rc hrc
          simp at hrc
        · exact ih rest1 h2 p hp1

theorem indicator_conf_results_isOk
    (evalInd : String → IndicatorConf → EvalOutcome) (indicator : String)
    (confs : List IndicatorConf) (cache : PyDict CandleSeries)
    (hb : ∀ c e, evalInd indicator c ≠ .otherError e) :
    ∃ out, indicator_conf_results evalInd indicator confs cache = .ok out := by
  induction confs with
  | nil => exact ⟨[], rfl⟩
  | cons conf rest ih =>
    obtain ⟨out, hout⟩ := ih
    rw [indicator_conf_results]
    cases hen : conf.enabled with
    | false =>
      simp only [Bool.not_false, if_true]
      exact ⟨out, hout⟩
    | true =>
      simp only [Bool.not_true, if_false]
      cases hc : pyGet? cache conf.candle_period with
      | none => exact ⟨out, hout⟩
      | some series =>
        simp only
        by_cases hlen : series.length = 0
        · simp only [hlen, if_true]
          exact ⟨out, hout⟩
        · simp only [hlen, if_false]
          cases hev : evalInd indicator conf with
          | ok rows =>
            refine ⟨(RuleResult.table rows, conf) :: out, ?_⟩
            simp [get_analysis_result, hout]
          | typeError =>
            refine ⟨(RuleResult.emptyStr, conf) :: out, ?_⟩
            simp [get_analysis_result, hout]
          | otherError e => exact absurd hev (hb conf e)

theorem get_indicator_results_isOk (dispatcherNames : List String)
    (indicatorConf : PyDict (List IndicatorConf))
    (cache : PyDict CandleSeries)
    (evalInd : String → IndicatorConf → EvalOutcome)
    (hb : ∀ i c e, evalInd i c ≠ .otherError e) :
    ∃ out, get_indicator_results dispatcherNames indicatorConf cache evalInd =
      .ok out := by
  induction indicatorConf with
  | nil => exact ⟨[], rfl⟩
  | cons hd rest ih =>
    obtain ⟨indicator, confs⟩ := hd
    obtain ⟨rest1, hrest1⟩ := ih
    rw [get_indicator_results]
    by_cases hd2 : dispatcherNames.contains indicator
    · simp only [hd2, if_true]
      obtain ⟨entries, hentries⟩ := indicator_conf_results_isOk evalInd
        indicator confs cache (fun c e => hb indicator c e)
      rw [hentries, hrest1]
      exact ⟨(indicator, entries) :: rest1, rfl⟩
    · simp only [hd2, if_false]
      rw [hrest1]
      exact ⟨(indicator, []) :: rest1, rfl⟩

theorem indicator_conf_results_presence
    (evalInd : String → IndicatorConf → EvalOutcome) (indicator : String)
    (confs : List IndicatorConf) (cache : PyDict CandleSeries)
    (conf : IndicatorConf) (hmem : conf ∈ confs) (hen : conf.enabled = true)
    (series : CandleSeries)
    (hs : pyGet? cache conf.candle_period = some series)
    (hlen : series.length ≠ 0)
    (out : List (RuleResult × IndicatorConf))
    (h : indicator_conf_results evalInd indicator confs cache = .ok out) :
    ∃ r, get_analysis_result (evalInd indicator conf) = .ok r ∧
      (r, conf) ∈ out := by
  induction confs generalizing out with
  | nil => simp at hmem
  | cons conf0 rest ih =>
    rw [indicator_conf_results] at h
    rcases List.mem_cons.mp hmem with hc0 | hc0
    · subst hc0
      simp only [hen, Bool.not_true, if_false] at h
      rw [hs] at h
      simp only [hlen, if_false] at h
      cases hr : get_analysis_result (evalInd indicator conf) with
      | error e => rw [hr] at h; simp at h
      | ok r =>
        rw [hr] at h
        simp only at h
        cases hrest : indicator_conf_results evalInd indicator rest cache with
        | error e => rw [hrest] at h; simp at h
        | ok rest1 =>
          rw [hrest] at h
          simp at h
          subst h
          exact ⟨r, rfl, List.mem_cons_self _ _⟩
    · cases hen0 : conf0.enabled with
      | false =>
        simp only [hen0, Bool.not_false, if_true] at h
        exact ih hc0 out h
      | true =>
        simp only [hen0, Bool.not_true, if_false] at h
        cases hcc : pyGet? cache conf0.candle_period with
        | none =>
          rw [hcc] at h
          exact ih hc0 out h
        | some series0 =>
          rw [hcc] at h
          simp only at h
          by_cases hlen0 : series0.length = 0
          · simp only [hlen0, if_true] at h
            exact ih hc0 out h
          · simp only [hlen0, if_false] at h
            cases hr0 : get_analysis_result (evalInd indicator conf0) with
            | error e => rw [hr0] at h; simp at h
            | ok r0 =>
              rw [hr0] at h
              simp only at h
              cases hrest : indicator_conf_results evalInd indicator rest
                  cache with
              | error e => rw [hrest] at h; simp at h
              | ok rest1 =>
                rw [hrest] at h
                simp at h
                subst h
                obtain ⟨r, hr, hrmem⟩ := ih hc0 rest1 hrest
                exact ⟨r, hr, List.mem_cons_of_mem _ hrmem⟩

theorem get_indicator_results_presence (dispatcherNames : List String)
    (indicatorConf : PyDict (List IndicatorConf))
    (cache : PyDict CandleSeries)
    (evalInd : String → IndicatorConf → EvalOutcome)
    (indicator : String) (confs : List IndicatorConf)
    (hp : (indicator, confs) ∈ indicatorConf)
    (hd2 : dispatcherNames.contains indicator = true)
    (conf : IndicatorConf) (hmem : conf ∈ confs) (hen : conf.enabled = true)
    (series : CandleSeries)
    (hs : pyGet? cache conf.candle_period = some series)
    (hlen : series.length ≠ 0)
    (out : PyDict (List (RuleResult × IndicatorConf)))
    (h : get_indicator_results dispatcherNames indicatorConf cache evalInd =
      .ok out) :
    ∃ entries r, (indicator, entries) ∈ out ∧ (r, conf) ∈ entries ∧
      get_analysis_result (evalInd indicator conf) = .ok r := by
  induction indicatorConf generalizing out with
  | nil => simp at hp
  | cons hd rest ih =>
    obtain ⟨ind0, confs0⟩ := hd
    rw [get_indicator_results] at h
    by_cases hd0 : dispatcherNames.contains ind0
    · simp only [hd0, if_true] at h
      cases h1 : indicator_conf_results evalInd ind0 confs0 cache with
      | error e => rw [h1] at h; simp at h
      | ok entries0 =>
        rw [h1] at h
        simp only at h
        cases h2 : get_indicator_results dispatcherNames rest cache
            evalInd with
        | error e => rw [h2] at h; simp at h
        | ok rest1 =>
          rw [h2] at h
          simp at h
          subst h
          rcases List.mem_cons.mp hp with hp1 | hp1
          · rw [Prod.mk.injEq] at hp1
            obtain ⟨hind, hconfs⟩ := hp1
            subst hind
            subst hconfs
            obtain ⟨r, hr, hrmem⟩ := indicator_conf_results_presence evalInd
              indicator confs cache conf hmem hen series hs hlen entries0 h1
            exact ⟨entries0, r, List.mem_cons_self _ _, hrmem, hr⟩
          · obtain ⟨entries, r, hm1, hm2, hm3⟩ := ih hp1 rest1 h2
            exact ⟨entries, r, List.mem_cons_of_mem _ hm1, hm2, hm3⟩
    · simp only [hd0, if_false] at h
      cases h2 : get_indicator_results dispatcherNames rest cache evalInd with
      | error e => rw [h2] at h; simp at h
      | ok rest1 =>
        rw [h2] at h
        simp at h
        subst h
        rcases List.mem_cons.mp hp with hp1 | hp1
        · rw [Prod.mk.injEq] at hp1
          rw [← hp1.1] at hd0
          exact absurd hd2 hd0
        · obtain ⟨entries, r, hm1, hm2, hm3⟩ := ih hp1 rest1 h2
          exact ⟨entries, r, List.mem_cons_of_mem _ hm1, hm2, hm3⟩

theorem informant_conf_results_period_absent
    (evalInf : String → IndicatorConf → EvalOutcome) (informant : String)
    (confs : List IndicatorConf) (cache : PyDict CandleSeries) (cp : String)
    (hcp : pyGet? cache cp = none)
    (out : List (RuleResult × IndicatorConf))
    (h : informant_conf_results evalInf informant confs cache = .ok out) :
    ∀ rc ∈ out, rc.2.candle_period ≠ cp := by
  induction confs generalizing out with
  | nil =>
    simp [informant_conf_results] at h
    subst h
    intro rc hrc
    simp at hrc
  | cons conf rest ih =>
    rw [informant_conf_results] at h
    cases hen : conf.enabled with
    | false =>
      simp only [hen, Bool.not_false, if_true] at h
      exact ih out h
    | true =>
      simp only [hen, Bool.not_true, if_false] at h
      cases hc : pyGet? cache conf.candle_period with
      | none =>
        rw [hc] at h
        exact ih out h
      | some series =>
        rw [hc] at h
        simp only at h
        by_cases hlen : series.length = 0
        · simp only [hlen, if_true] at h
          exact ih out h
        · simp only [hlen, if_false] at h
          cases hr : get_analysis_result (evalInf informant conf) with
          | error e => rw [hr] at h; simp at h
          | ok r =>
            rw [hr] at h
            simp only at h
            cases hrest : informant_conf_results evalInf informant rest cache with
            | error e => rw [hrest] at h; simp at h
            | ok rest1 =>
              rw [hrest] at h
              simp at h
              subst h
              intro rc hrc
              rcases List.mem_cons.mp hrc with hrc1 | hrc1
              · subst hrc1
                intro hcpe
                rw [hcpe] at hc
                rw [hc] at hcp
                cases hcp
              · exact ih rest1 hrest rc hrc1

theorem get_informant_results_period_absent (dispatcherNames : List String)
    (informantConf : PyDict (List IndicatorConf))
    (cache : PyDict CandleSeries)
    (evalInf : String → IndicatorConf → EvalOutcome) (cp : String)
    (hcp : pyGet? cache cp = none)
    (out : PyDict (List (RuleResult × IndicatorConf)))
    (h : get_informant_results dispatcherNames informantConf cache evalInf =
      .ok out) :
    ∀ p ∈ out, ∀ rc ∈ p.2, rc.2.candle_period ≠ cp := by
  induction informantConf generalizing out with
  | nil =>
    simp [get_informant_results] at h
    subst h
    intro p hp
    simp at hp
  | cons hd rest ih =>
    obtain ⟨informant, confs⟩ := hd
    rw [get_informant_results] at h
    by_cases hd2 : dispatcherNames.contains informant
    · simp only [hd2, if_true] at h
      cases h1 : informant_conf_results evalInf informant confs cache with
      | error e => rw [h1] at h; simp at h
      | ok entries =>
        rw [h1] at h
        simp only at h
        cases h2 : get_informant_results dispatcherNames rest cache evalInf with
        | error e => rw [h2] at h; simp at h
        | ok rest1 =>
          rw [h2] at h
          simp at h
          subst h
          intro p hp
          rcases List.mem_cons.mp hp with hp1 | hp1
          · subst hp1
            intro rc hrc
            exact informant_conf_results_period_absent evalInf informant
              confs cache cp hcp entries h1 rc hrc
          · exact ih rest1 h2 p hp1
    · simp only [hd2, if_false] at h
      cases h2 : get_informant_results dispatcherNames rest cache evalInf with
      | error e => rw [h2] at h; simp at h
      | ok rest1 =>
        rw [h2] at h
        simp at h
        subst h
        intro p hp
        rcases List.mem_cons.mp hp with hp1 | hp1
        · subst hp1
          intro rc hrc
          simp at hrc
        · exact ih rest1 h2 p hp1

theorem informant_conf_results_isOk
    (evalInf : String → IndicatorConf → EvalOutcome) (informant : String)
    (confs : List IndicatorConf) (cache : PyDict CandleSeries)
    (hb : ∀ c e, evalInf informant c ≠ .otherError e) :
    ∃ out, informant_conf_results evalInf informant confs cache = .ok out := by
  induction confs with
  | nil => exact ⟨[], rfl⟩
  | cons conf rest ih =>
    obtain ⟨out, hout⟩ := ih
    rw [informant_conf_results]
    cases hen : conf.enabled with
    | false =>
      simp only [Bool.not_false, if_true]
      exact ⟨out, hout⟩
    | true =>
      simp only [Bool.not_true, if_false]
      cases hc : pyGet? cache conf.candle_period with
      | none => exact ⟨out, hout⟩
      | some series =>
        simp only
        by_cases hlen : series.length = 0
        · simp only [hlen, if_true]
          exact ⟨out, hout⟩
        · simp only [hlen, if_false]
          cases hev : evalInf informant conf with
          | ok rows =>
            refine ⟨(RuleResult.table rows, conf) :: out, ?_⟩
            simp [get_analysis_result, hout]
          | typeError =>
            refine ⟨(RuleResult.emptyStr, conf) :: out, ?_⟩
            simp [get_analysis_result, hout]
          | otherError e => exact absurd hev (hb conf e)

theorem get_informant_results_isOk (dispatcherNames : List String)
    (informantConf : PyDict (List IndicatorConf))
    (cache : PyDict CandleSeries)
    (evalInf : String → IndicatorConf → EvalOutcome)
    (hb : ∀ i c e, evalInf i c ≠ .otherError e) :
    ∃ out, get_informant_results dispatcherNames informantConf cache evalInf =
      .ok out := by
  induction informantConf with
  | nil => exact ⟨[], rfl⟩
  | cons hd rest ih =>
    obtain ⟨informant, confs⟩ := hd
    obtain ⟨rest1, hrest1⟩ := ih
    rw [get_informant_results]
    by_cases hd2 : dispatcherNames.contains informant
    · simp only [hd2, if_true]
      obtain ⟨entries, hentries⟩ := informant_conf_results_isOk evalInf
        informant confs cache (fun c e => hb informant c e)
      rw [hentries, hrest1]
      exact ⟨(informant, entries) :: rest1, rfl⟩
    · simp only [hd2, if_false]
      rw [hrest1]
      exact ⟨(informant, []) :: rest1, rfl⟩

theorem informant_conf_results_presence
    (evalInf : String → IndicatorConf → EvalOutcome) (informant : String)
    (confs : List IndicatorConf) (cache : PyDict CandleSeries)
    (conf : IndicatorConf) (hmem : conf ∈ confs) (hen : conf.enabled = true)
    (series : CandleSeries)
    (hs : pyGet? cache conf.candle_period = some series)
    (hlen : series.length ≠ 0)
    (out : List (RuleResult × IndicatorConf))
    (h : informant_conf_results evalInf informant confs cache = .ok out) :
    ∃ r, get_analysis_result (evalInf informant conf) = .ok r ∧
      (r, conf) ∈ out := by
  induction confs generalizing out with
  | nil => simp at hmem
  | cons conf0 rest ih =>
    rw [informant_conf_results] at h
    rcases List.mem_cons.mp hmem with hc0 | hc0
    · subst hc0
      simp only [hen, Bool.not_true, if_false] at h
      rw [hs] at h
      simp only [hlen, if_false] at h
      cases hr : get_analysis_result (evalInf informant conf) with
      | error e => rw [hr] at h; simp at h
      | ok r =>
        rw [hr] at h
        simp only at h
        cases hrest : informant_conf_results evalInf informant rest cache with
        | error e => rw [hrest] at h; simp at h
        | ok rest1 =>
          rw [hrest] at h
          simp at h
          subst h
          exact ⟨r, rfl, List.mem_cons_self _ _⟩
    · cases hen0 : conf0.enabled with
      | false =>
        simp only [hen0, Bool.not_false, if_true] at h
        exact ih hc0 out h
      | true =>
        simp only [hen0, Bool.not_true, if_false] at h
        cases hcc : pyGet? cache conf0.candle_period with
        | none =>
          rw [hcc] at h
          exact ih hc0 out h
        | some series0 =>
          rw [hcc] at h
          simp only at h
          by_cases hlen0 : series0.length = 0
          · simp only [hlen0, if_true] at h
            exact ih hc0 out h
          · simp only [hlen0, if_false] at h
            cases hr0 : get_analysis_result (evalInf informant conf0) with
            | error e => rw [hr0] at h; simp at h
            | ok r0 =>
              rw [hr0] at h
              simp only at h
              cases hrest : informant_conf_results evalInf informant rest
                  cache with
              | error e => rw [hrest] at h; simp at h
              | ok rest1 =>
                rw [hrest] at h
                simp at h
                subst h
                obtain ⟨r, hr, hrmem⟩ := ih hc0 rest1 hrest
                exact ⟨r, hr, List.mem_cons_of_mem _ hrmem⟩

theorem get_informant_results_presence (dispatcherNames : List String)
    (informantConf : PyDict (List IndicatorConf))
    (cache : PyDict CandleSeries)
    (evalInf : String → IndicatorConf → EvalOutcome)
    (informant : String) (confs : List IndicatorConf)
    (hp : (informant, confs) ∈ informantConf)
    (hd2 : dispatcherNames.contains informant = true)
    (conf : IndicatorConf) (hmem : conf ∈ confs) (hen : conf.enabled = true)
    (series : CandleSeries)
    (hs : pyGet? cache conf.candle_period = some series)
    (hlen : series.length ≠ 0)
    (out : PyDict (List (RuleResult × IndicatorConf)))
    (h : get_informant_results dispatcherNames informantConf cache evalInf =
      .ok out) :
    ∃ entries r, (informant, entries) ∈ out ∧ (r, conf) ∈ entries ∧
      get_analysis_result (evalInf informant conf) = .ok r := by
  induction informantConf generalizing out with
  | nil => simp at hp
  | cons hd rest ih =>
    obtain ⟨inf0, confs0⟩ := hd
    rw [get_informant_results] at h
    by_cases hd0 : dispatcherNames.contains inf0
    · simp only [hd0, if_true] at h
      cases h1 : informant_conf_results evalInf inf0 confs0 cache with
      | error e => rw [h1] at h; simp at h
      | ok entries0 =>
        rw [h1] at h
        simp only at h
        cases h2 : get_informant_results dispatcherNames rest cache
            evalInf with
        | error e => rw [h2] at h; simp at h
        | ok rest1 =>
          rw [h2] at h
          simp at h
          subst h
          rcases List.mem_cons.mp hp with hp1 | hp1
          · rw [Prod.mk.injEq] at hp1
            obtain ⟨hind, hconfs⟩ := hp1
            subst hind
            subst hconfs
            obtain ⟨r, hr, hrmem⟩ := informant_conf_results_presence evalInf
              informant confs cache conf hmem hen series hs hlen entries0 h1
            exact ⟨entries0, r, List.mem_cons_self _ _, hrmem, hr⟩
          · obtain ⟨entries, r, hm1, hm2, hm3⟩ := ih hp1 rest1 h2
            exact ⟨entries, r, List.mem_cons_of_mem _ hm1, hm2, hm3⟩
    · simp only [hd0, if_false] at h
      cases h2 : get_informant_results dispatcherNames rest cache evalInf with
      | error e => rw [h2] at h; simp at h
      | ok rest1 =>
        rw [h2] at h
        simp at h
        subst h
        rcases List.mem_cons.mp hp with hp1 | hp1
        · rw [Prod.mk.injEq] at hp1
          rw [← hp1.1] at hd0
          exact absurd hd2 hd0
        · obtain ⟨entries, r, hm1, hm2, hm3⟩ := ih hp1 rest1 h2
          exact ⟨entries, r, List.mem_cons_of_mem _ hm1, hm2, hm3⟩

/-- C8: for a market pair, if a candle period is absent from the pair's
fetched data cache, then (for both indicators and informants, given that
the dispatched analysers themselves raise nothing uncaught) the whole
result pass completes without raising, no produced result entry references
the absent period — the lines 199-200 / 256-257 `continue` skips every
enabled config naming it — and every enabled config of a recognized rule
whose period IS present with a non-empty series still produces its result
entry. -/
theorem c8_absent_period_skipped
    (indDispatcher infDispatcher : List String)
    (indicatorConf informantConf : PyDict (List IndicatorConf))
    (cache : PyDict CandleSeries)
    (evalInd evalInf : String → IndicatorConf → EvalOutcome)
    (cp : String) (hcp : pyGet? cache cp = none)
    (hbInd : ∀ i c e, evalInd i c ≠ .otherError e)
    (hbInf : ∀ i c e, evalInf i c ≠ .otherError e) :
    (∃ out, get_indicator_results indDispatcher indicatorConf cache evalInd =
        .ok out ∧
      (∀ p ∈ out, ∀ rc ∈ p.2, rc.2.candle_period ≠ cp) ∧
      (∀ nm confs, (nm, confs) ∈ indicatorConf →
        indDispatcher.contains nm = true →
        ∀ conf ∈ confs, conf.enabled = true →
        ∀ series, pyGet? cache conf.candle_period = some series →
          series.length ≠ 0 →
          ∃ entries r, (nm, entries) ∈ out ∧ (r, conf) ∈ entries ∧
            get_analysis_result (evalInd nm conf) = .ok r)) ∧
    (∃ out, get_informant_results infDispatcher informantConf cache evalInf =
        .ok out ∧
      (∀ p ∈ out, ∀ rc ∈ p.2, rc.2.candle_period ≠ cp) ∧
      (∀ nm confs, (nm, confs) ∈ informantConf →
        infDispatcher.contains nm = true →
        ∀ conf ∈ confs, conf.enabled = true →
        ∀ series, pyGet? cache conf.candle_period = some series →
          series.length ≠ 0 →
          ∃ entries r, (nm, entries) ∈ out ∧ (r, conf) ∈ entries ∧
            get_analysis_result (evalInf nm conf) = .ok r)) := by
  constructor
  · obtain ⟨out1, hout1⟩ := get_indicator_results_isOk indDispatcher
      indicatorConf cache evalInd hbInd
    refine ⟨out1, hout1, ?_, ?_⟩
    · exact get_indicator_results_period_absent indDispatcher indicatorConf
        cache evalInd cp hcp out1 hout1
    · intro nm confs hpm hdm conf hm hen series hs hlen
      exact get_indicator_results_presence indDispatcher indicatorConf cache
        evalInd nm confs hpm hdm conf hm hen series hs hlen out1 hout1
  · obtain ⟨out1, hout1⟩ := get_informant_results_isOk infDispatcher
      informantConf cache evalInf hbInf
    refine ⟨out1, hout1, ?_, ?_⟩
    · exact get_informant_results_period_absent infDispatcher informantConf
        cache evalInf cp hcp out1 hout1
    · intro nm confs hpm hdm conf hm hen series hs hlen
      exact get_informant_results_presence infDispatcher informantConf cache
        evalInf nm confs hpm hdm conf hm hen series hs hlen out1 hout1

/-- Closed instance of C8 at a concrete input. -/
theorem c8_absent_period_skipped_witness :
    (∃ out, get_indicator_results ["rsi"] c8indicatorConf c8cache c8eval =
        .ok out ∧
      (∀ p ∈ out, ∀ rc ∈ p.2, rc.2.candle_period ≠ "4h") ∧
      (∀ nm confs, (nm, confs) ∈ c8indicatorConf →
        List.contains ["rsi"] nm = true →
        ∀ conf ∈ confs, conf.enabled = true →
        ∀ series, pyGet? c8cache conf.candle_period = some series →
          series.length ≠ 0 →
          ∃ entries r, (nm, entries) ∈ out ∧ (r, conf) ∈ entries ∧
            get_analysis_result (c8eval nm conf) = .ok r)) ∧
    (∃ out, get_informant_results ["ohlcv"] c8informantConf c8cache c8eval =
        .ok out ∧
      (∀ p ∈ out, ∀ rc ∈ p.2, rc.2.candle_period ≠ "4h") ∧
      (∀ nm confs, (nm, confs) ∈ c8informantConf →
        List.contains ["ohlcv"] nm = true →
        ∀ conf ∈ confs, conf.enabled = true →
        ∀ series, pyGet? c8cache conf.candle_period = some series →
          series.length ≠ 0 →
          ∃ entries r, (nm, entries) ∈ out ∧ (r, conf) ∈ entries ∧
            get_analysis_result (c8eval nm conf) = .ok r)) :=
  c8_absent_period_skipped ["rsi"] ["ohlcv"] c8indicatorConf c8informantConf
    c8cache c8eval c8eval "4h" (by decide)
    (by intro i c e; simp [c8eval])
    (by intro i c e; simp [c8eval])

theorem history_conf_loop_new_keys (fetch : String → CandleSeries)
    (confs : List IndicatorConf) (cache : PyDict CandleSeries)
    (log : List String) (cp : String)
    (hsome : pyGet? (history_conf_loop fetch confs cache log).1 cp ≠ none)
    (hnone : pyGet? cache cp = none) :
    ∃ conf, conf ∈ confs ∧ conf.enabled = true ∧
      conf.candle_period = cp := by
  induction confs generalizing cache log with
  | nil =>
    rw [history_conf_loop] at hsome
    exact absurd hnone hsome
  | cons conf rest ih =>
    rw [history_conf_loop] at hsome
    cases hen : conf.enabled with
    | false =>
      rw [hen] at hsome
      simp only [if_false] at hsome
      obtain ⟨c, hm, he, hc⟩ := ih cache log hsome hnone
      exact ⟨c, List.mem_cons_of_mem _ hm, he, hc⟩
    | true =>
      rw [hen] at hsome
      simp only [if_true] at hsome
      cases hc : pyGet? cache conf.candle_period with
      | some w =>
        rw [hc] at hsome
        obtain ⟨c, hm, he, hcc⟩ := ih cache log hsome hnone
        exact ⟨c, List.mem_cons_of_mem _ hm, he, hcc⟩
      | none =>
        rw [hc] at hsome
        simp only at hsome
        by_cases hlen : (fetch conf.candle_period).length = 0
        · simp only [hlen, if_true] at hsome
          obtain ⟨c, hm, he, hcc⟩ := ih cache _ hsome hnone
          exact ⟨c, List.mem_cons_of_mem _ hm, he, hcc⟩
        · simp only [hlen, if_false] at hsome
          by_cases hcp : conf.candle_period = cp
          · exact ⟨conf, List.mem_cons_self _ _, hen, hcp⟩
          · have hnone2 : pyGet? (pySet cache conf.candle_period
                (fetch conf.candle_period)) cp = none := by
              rw [pyGet_set, if_neg hcp]
              exact hnone
            obtain ⟨c, hm, he, hcc⟩ := ih _ _ hsome hnone2
            exact ⟨c, List.mem_cons_of_mem _ hm, he, hcc⟩

theorem history_indicator_loop_new_keys (dispatcherNames : List String)
    (fetch : String → CandleSeries)
    (indicatorConf : PyDict (List IndicatorConf))
    (cache : PyDict CandleSeries) (log : List String) (cp : String)
    (hsome : pyGet? (history_indicator_loop dispatcherNames fetch
      indicatorConf cache log).1 cp ≠ none)
    (hnone : pyGet? cache cp = none) :
    ∃ p, p ∈ indicatorConf ∧ dispatcherNames.contains p.1 = true ∧
      ∃ conf, conf ∈ p.2 ∧ conf.enabled = true ∧
        conf.candle_period = cp := by
  induction indicatorConf generalizing cache log with
  | nil =>
    rw [history_indicator_loop] at hsome
    exact absurd hnone hsome
  | cons hd rest ih =>
    obtain ⟨ind, confs⟩ := hd
    rw [history_indicator_loop] at hsome
    by_cases hd2 : dispatcherNames.contains ind
    · simp only [hd2, if_true] at hsome
      cases hc1 : pyGet? (history_conf_loop fetch confs cache log).1 cp with
      | some w =>
        obtain ⟨conf, hm, he, hcc⟩ := history_conf_loop_new_keys fetch confs
          cache log cp (by rw [hc1]; exact Option.some_ne_none w) hnone
        exact ⟨(ind, confs), List.mem_cons_self _ _, hd2, conf, hm, he, hcc⟩
      | none =>
        obtain ⟨p, hp, hpd, conf, hm, he, hcc⟩ := ih
          (history_conf_loop fetch confs cache log).1
          (history_conf_loop fetch confs cache log).2 hsome hc1
        exact ⟨p, List.mem_cons_of_mem _ hp, hpd, conf, hm, he, hcc⟩
    · simp only [hd2, if_false] at hsome
      obtain ⟨p, hp, hpd, conf, hm, he, hcc⟩ := ih cache log hsome hnone
      exact ⟨p, List.mem_cons_of_mem _ hp, hpd, conf, hm, he, hcc⟩

/-- C10: candle data is fetched only for the candle periods of enabled,
recognized INDICATOR configs (`get_all_historical_data` iterates
`self.indicator_conf` only, behaviour.py lines 103-110); therefore an
informant configuration whose candle period is not the period of any such
indicator config always finds the period absent from the per-pair cache —
whatever the fetch collaborator would return for it, i.e. even when the
exchange supports the period — and is silently skipped, producing no
result entry for that period. -/
theorem c10_informant_only_period_skipped
    (indDispatcher infDispatcher : List String)
    (indicatorConf informantConf : PyDict (List IndicatorConf))
    (fetch : String → CandleSeries)
    (evalInf : String → IndicatorConf → EvalOutcome) (cp : String)
    (hno : ∀ p, p ∈ indicatorConf → indDispatcher.contains p.1 = true →
      ∀ conf, conf ∈ p.2 → conf.enabled = true →
        conf.candle_period ≠ cp) :
    pyGet? (get_all_historical_data_pair indDispatcher indicatorConf
      fetch).1 cp = none ∧
    (∀ out, get_informant_results infDispatcher informantConf
        (get_all_historical_data_pair indDispatcher indicatorConf fetch).1
        evalInf = .ok out →
      ∀ p ∈ out, ∀ rc ∈ p.2, rc.2.candle_period ≠ cp) := by
  have habs : pyGet? (get_all_historical_data_pair indDispatcher
      indicatorConf fetch).1 cp = none := by
    by_contra hsome
    obtain ⟨p, hp, hpd, conf, hm, he, hcc⟩ :=
      history_indicator_loop_new_keys indDispatcher fetch indicatorConf
        [] [] cp hsome (by simp [pyGet?])
    exact hno p hp hpd conf hm he hcc
  refine ⟨habs, ?_⟩
  intro out hout
  exact get_informant_results_period_absent infDispatcher informantConf
    (get_all_historical_data_pair indDispatcher indicatorConf fetch).1
    evalInf cp habs out hout

/-- Closed instance of C10 at a concrete input: the fetch collaborator
supports every period (it would return data for 4h), yet 4h is never in
the cache and the 4h informant config yields no entry. -/
theorem c10_informant_only_period_skipped_witness :
    pyGet? (get_all_historical_data_pair ["rsi"] c10indicatorConf
      (fun _ => [5])).1 "4h" = none ∧
    (∀ out, get_informant_results ["ohlcv"] c10informantConf
        (get_all_historical_data_pair ["rsi"] c10indicatorConf
          (fun _ => [5])).1 c8eval = .ok out →
      ∀ p ∈ out, ∀ rc ∈ p.2, rc.2.candle_period ≠ "4h") :=
  c10_informant_only_period_skipped ["rsi"] ["ohlcv"] c10indicatorConf
    c10informantConf (fun _ => [5]) c8eval "4h" (by decide)

theorem load_exchanges_fold_get
    (run : String → Except String ExchangeRunResult)
    (exchanges : List String) (acc : PyDict ExchangeRunResult)
    (e : String) :
    (e ∈ exchanges → ∀ r, run e = .ok r →
      pyGet? (exchanges.foldl (load_exchanges_step run) acc) e = some r) ∧
    ((∀ s, run e ≠ .ok s) ∨ e ∉ exchanges →
      pyGet? (exchanges.foldl (load_exchanges_step run) acc) e =
        pyGet? acc e) := by
  induction exchanges generalizing acc with
  | nil => exact ⟨fun hm => absurd hm (List.not_mem_nil e), fun _ => rfl⟩
  | cons x rest ih =>
    constructor
    · intro hm r hr
      rw [List.foldl_cons]
      rcases List.mem_cons.mp hm with hx | hx
      · subst hx
        by_cases hrest : e ∈ rest
        · exact (ih _).1 hrest r hr
        · have hstep : load_exchanges_step run acc e = pySet acc e r := by
            simp [load_exchanges_step, load_exchange, hr]
          rw [hstep, (ih (pySet acc e r)).2 (Or.inr hrest),
            pyGet_set, if_pos rfl]
      · exact (ih _).1 hx r hr
    · intro hcase
      rw [List.foldl_cons]
      have hacc : pyGet? (load_exchanges_step run acc x) e =
          pyGet? acc e := by
        rcases hcase with hne | hnm
        · cases hrx : run x with
          | ok rx =>
            by_cases hxe : x = e
            · subst hxe
              exact absurd hrx (hne rx)
            · simp only [load_exchanges_step, load_exchange, hrx]
              rw [pyGet_set, if_neg hxe]
          | error msg => simp [load_exchanges_step, load_exchange, hrx]
        · have hxe : x ≠ e := fun hx => hnm (hx ▸ List.mem_cons_self x rest)
          cases hrx : run x with
          | ok rx =>
            simp only [load_exchanges_step, load_exchange, hrx]
            rw [pyGet_set, if_neg hxe]
          | error msg => simp [load_exchanges_step, load_exchange, hrx]
      have hrest2 : (∀ s, run e ≠ .ok s) ∨ e ∉ rest := by
        rcases hcase with hne | hnm
        · exact Or.inl hne
        · exact Or.inr (fun hx => hnm (List.mem_cons_of_mem _ hx))
      rw [(ih (load_exchanges_step run acc x)).2 hrest2, hacc]

theorem first_run_error_ok (run : String → Except String ExchangeRunResult)
    (exchanges : List String)
    (h : ∀ e ∈ exchanges, ∃ r, run e = .ok r) :
    first_run_error run exchanges = .ok () := by
  induction exchanges with
  | nil => rfl
  | cons x rest ih =>
    obtain ⟨r, hr⟩ := h x (List.mem_cons_self _ _)
    rw [first_run_error, hr]
    exact ih (fun e he => h e (List.mem_cons_of_mem _ he))

theorem first_run_error_err (run : String → Except String ExchangeRunResult)
    (exchanges : List String) (e : String) (msg : String)
    (hm : e ∈ exchanges) (hr : run e = .error msg) :
    ∃ msg2, first_run_error run exchanges = .error msg2 := by
  induction exchanges with
  | nil => simp at hm
  | cons x rest ih =>
    rw [first_run_error]
    cases hrx : run x with
    | error m => exact ⟨m, rfl⟩
    | ok rx =>
      rcases List.mem_cons.mp hm with hx | hx
      · subst hx
        rw [hr] at hrx
        cases hrx
      · exact ih hx

/-- C9 counterexample: with one failing exchange in the cycle, the cycle's
job does NOT complete normally — `load_exchange` logs and then RE-RAISES
the exception (app.py line 513) and the `as_completed` loop re-raises it
again (line 532), so the scheduled job itself ends with the exception
(first conjunct), contrary to the claim that the failure is caught at the
per-exchange unit.  The sibling exchange's results are still recorded and
the failed exchange's are absent (second and third conjuncts). -/
theorem c9_failure_reraised_counterexample :
    (load_exchanges c9run ["bittrex", "binance"]).2 =
      .error "ExchangeError: bad candle data" ∧
    pyGet? (load_exchanges c9run ["bittrex", "binance"]).1 "binance" =
      some [("BTC/USDT", [("1h", [])])] ∧
    pyGet? (load_exchanges c9run ["bittrex", "binance"]).1 "bittrex" =
      none :=
  ⟨rfl, rfl, rfl⟩

/-- C9 corrected: a failure while fetching or analyzing one exchange is
logged per-exchange but then re-raised, failing the whole scheduled job
(third conjunct), rather than being contained at the per-exchange unit.
Because every submitted task still runs to completion and stores its own
results before the consuming loop re-raises, every sibling exchange's
results are present in `new_results` and only the failed exchange's are
absent (first and second conjuncts); a cycle whose exchanges all succeed
ends normally (fourth conjunct). -/
theorem c9_partial_isolation
    (run : String → Except String ExchangeRunResult)
    (exchanges : List String) :
    (∀ e ∈ exchanges, ∀ r, run e = .ok r →
      pyGet? (load_exchanges run exchanges).1 e = some r) ∧
    (∀ e ∈ exchanges, ∀ msg, run e = .error msg →
      pyGet? (load_exchanges run exchanges).1 e = none) ∧
    (∀ e ∈ exchanges, ∀ msg, run e = .error msg →
      ∃ msg2, (load_exchanges run exchanges).2 = .error msg2) ∧
    ((∀ e ∈ exchanges, ∃ r, run e = .ok r) →
      (load_exchanges run exchanges).2 = .ok ()) := by
  refine ⟨?_, ?_, ?_, ?_⟩
  · intro e hm r hr
    simp only [load_exchanges]
    exact (load_exchanges_fold_get run exchanges [] e).1 hm r hr
  · intro e hm msg hr
    have hne : ∀ s, run e ≠ .ok s := by
      intro s hs
      rw [hr] at hs
      cases hs
    simp only [load_exchanges]
    rw [(load_exchanges_fold_get run exchanges [] e).2 (Or.inl hne)]
    rfl
  · intro e hm msg hr
    simp only [load_exchanges]
    exact first_run_error_err run exchanges e msg hm hr
  · intro hall
    simp only [load_exchanges]
    exact first_run_error_ok run exchanges hall

/-- Closed instance of the corrected C9 statement: the sibling exchange's
results are recorded despite the failure. -/
theorem c9_partial_isolation_witness :
    pyGet? (load_exchanges c9run ["bittrex", "binance"]).1 "binance" =
      some [("BTC/USDT", [("1h", [])])] :=
  (c9_partial_isolation c9run ["bittrex", "binance"]).1 "binance"
    (by decide) [("BTC/USDT", [("1h", [])])] rfl
